import Mathlib

/-!
Shallow embedding of the metrics-aggregation engine in `metrics.py` of the
`smash-character-competency` repository.

Python floats are modelled as real numbers, optional values as `Option`,
the dictionary payloads (`event`, `tournament`, `location`) as typed
optional fields, and Python truthiness tests are translated explicitly
(`None`, numeric `0` and the empty string are falsy).  The per-player
mutable `PlayerAggregate` of the source becomes an explicit value threaded
through folds; `compute_player_metrics` returns the list of emitted rows
(the trailing pandas `sort_values`/`reset_index` only permutes rows and is
not part of any per-row claim).
-/

open Real

/-- One set from a player's perspective (`smash_data.SetRecord`), restricted
to the fields that `metrics.py` reads: `won`, `opponent_seed`,
`opponent_placement`, `characters`.  Seeds and placements are tournament
ranks, hence natural numbers. -/
structure SetRecord where
  won : Option Bool
  opponent_seed : Option Nat
  opponent_placement : Option Nat
  characters : List String
deriving DecidableEq

/-- One player's record in one event (`smash_data.PlayerEventResult`), with
the dictionary payloads flattened to the typed optional fields that
`metrics.py` reads: `location_state` is `_location_state(result)`,
`event_numEntrants` is `result.event.get("numEntrants")`, `event_startAt`
is `result.event.get("startAt")`, `tournament_name` is
`result.tournament.get("name")` and `tournament_addrState` is
`(result.tournament or ...).get("addrState")`. -/
structure PlayerEventResult where
  player_id : Nat
  gamer_tag : String
  seed_num : Option Nat
  placement : Option Nat
  location_state : Option String
  event_numEntrants : Option Nat
  event_startAt : Option Int
  tournament_name : Option String
  tournament_addrState : Option String
  sets : List SetRecord
deriving DecidableEq

/-- The mutable accumulator `PlayerAggregate` of `metrics.py` (lines 23-52).
The Python `set` of tournament names becomes a `Finset String` (only its
cardinality is read); float counters become reals. -/
structure PlayerAggregate where
  player_id : Nat
  gamer_tag : String
  state : Option String
  tournaments : Finset String
  events_played : Nat := 0
  sets_played : Nat := 0
  wins : Nat := 0
  weighted_wins : ℝ := 0
  weight_sum : ℝ := 0
  seed_deltas : List ℝ := []
  opponent_strength_values : List ℝ := []
  sets_vs_higher_seed : Nat := 0
  wins_vs_higher_seed : Nat := 0
  character_sets : Nat := 0
  character_wins : Nat := 0
  character_weighted_wins : ℝ := 0
  character_weight_sum : ℝ := 0
  latest_event_start : Int := 0
  event_sizes : List Nat := []
  event_state_counts : List (String × Nat) := []

/-- `_event_weight(event, now_ts)` (`metrics.py` lines 55-65).  The Python
truthiness defaults are explicit: `event.get("numEntrants") or 0` maps an
absent count to `0`; `math.log2(num_entrants + 1) or 1.0` replaces a zero
logarithm by `1.0`; `event.get("startAt") or now_ts` maps an absent or
zero start timestamp to `now_ts`. -/
noncomputable def _event_weight (numEntrants : Option Nat) (startAt : Option Int)
    (now_ts : Int) : ℝ :=
  let num_entrants : Nat := numEntrants.getD 0
  let size_weight : ℝ :=
    if Real.logb 2 ((num_entrants : ℝ) + 1) = 0 then 1.0
    else Real.logb 2 ((num_entrants : ℝ) + 1)
  let start_at : Int :=
    match startAt with
    | none => now_ts
    | some s => if s = 0 then now_ts else s
  let recency_days : ℝ := max 0 (((now_ts : ℝ) - (start_at : ℝ)) / 86400)
  let recency_weight : ℝ := Real.exp (-(recency_days / 90))
  max 0.1 (size_weight * recency_weight)

/-- `1 / x` on a truthy optional integer: `some v` exactly when the input is
present and non-zero (Python truthiness of `set_record.opponent_seed`). -/
noncomputable def invOpt : Option Nat → Option ℝ
  | some n => if n ≠ 0 then some (1.0 / (n : ℝ)) else none
  | none => none

/-- `_opponent_strength_value(set_record)` (`metrics.py` lines 68-74): prefer
the truthy opponent seed, else the truthy opponent placement, else `none`. -/
noncomputable def _opponent_strength_value (set_record : SetRecord) : Option ℝ :=
  match invOpt set_record.opponent_seed with
  | some v => some v
  | none => invOpt set_record.opponent_placement

/-- `_uses_target_character(set_record, target_character)` (`metrics.py`
lines 77-79): case-insensitive exact membership. -/
def _uses_target_character (set_record : SetRecord) (target_character : String) : Bool :=
  set_record.characters.any (fun c => c.toLower == target_character.toLower)

/-- `_normalize_state(state)` (`metrics.py` lines 87-91): `None` on a falsy
input, otherwise strip and uppercase, then `None` if the result is empty. -/
def _normalize_state (state : Option String) : Option String :=
  match state with
  | none => none
  | some s =>
    if s = "" then none
    else
      let t := s.trim.toUpper
      if t = "" then none else some t

/-- Increment a region's count in the insertion-ordered tally, appending a
new key at the end (Python dict update, `metrics.py` line 134). -/
def bumpState : List (String × Nat) → String → List (String × Nat)
  | [], k => [(k, 1)]
  | (k', c) :: rest, k =>
    if k' = k then (k', c + 1) :: rest else (k', c) :: bumpState rest k

/-- The test on `metrics.py` lines 149-153: the opponent's seed and the
player's own seed are both known and the opponent was seeded higher
(numerically lower). -/
def upsetCandidate (set_record : SetRecord) (seed_num : Option Nat) : Bool :=
  match set_record.opponent_seed, seed_num with
  | some os, some ps => decide (os < ps)
  | _, _ => false

/-- The body of the inner `for set_record in result.sets` loop of
`compute_player_metrics` (`metrics.py` lines 136-163), for one
`SetRecord`, given the event weight and the player's own seed.  Sets with
an unknown result are skipped entirely; conditional Python increments
become `+ if _ then _ else 0`. -/
noncomputable def stepSet (event_weight : ℝ) (seed_num : Option Nat)
    (target_character : String) (agg : PlayerAggregate) (set_record : SetRecord) :
    PlayerAggregate :=
  match set_record.won with
  | none => agg
  | some won =>
    let upset_candidate : Bool := upsetCandidate set_record seed_num
    let uses_char : Bool := _uses_target_character set_record target_character
    { agg with
      sets_played := agg.sets_played + 1
      wins := agg.wins + (if won then 1 else 0)
      weighted_wins := agg.weighted_wins + (if won then event_weight else 0)
      weight_sum := agg.weight_sum + event_weight
      opponent_strength_values :=
        agg.opponent_strength_values ++ (_opponent_strength_value set_record).toList
      sets_vs_higher_seed := agg.sets_vs_higher_seed + (if upset_candidate then 1 else 0)
      wins_vs_higher_seed :=
        agg.wins_vs_higher_seed + (if upset_candidate && won then 1 else 0)
      character_sets := agg.character_sets + (if uses_char then 1 else 0)
      character_wins := agg.character_wins + (if uses_char && won then 1 else 0)
      character_weighted_wins :=
        agg.character_weighted_wins + (if uses_char && won then event_weight else 0)
      character_weight_sum :=
        agg.character_weight_sum + (if uses_char then event_weight else 0) }

/-- The per-record body of the outer loop of `compute_player_metrics`
(`metrics.py` lines 114-163): the event-level updates followed by the fold
over the record's sets.  Python truthiness gates are explicit: a tournament
name, an entrant count and a start timestamp count only when present and
non-falsy, and an `addrState` is tallied only when present and non-empty. -/
noncomputable def stepRecord (target_character : String) (now_ts : Int)
    (agg : PlayerAggregate) (result : PlayerEventResult) : PlayerAggregate :=
  let event_weight := _event_weight result.event_numEntrants result.event_startAt now_ts
  let agg1 : PlayerAggregate :=
    { agg with
      events_played := agg.events_played + 1
      tournaments :=
        match result.tournament_name with
        | some nm => if nm = "" then agg.tournaments else insert nm agg.tournaments
        | none => agg.tournaments
      seed_deltas :=
        agg.seed_deltas ++
          (match result.seed_num, result.placement with
           | some sd, some pl => [(sd : ℝ) - (pl : ℝ)]
           | _, _ => [])
      latest_event_start :=
        match result.event_startAt with
        | some s => if s ≠ 0 ∧ agg.latest_event_start < s then s else agg.latest_event_start
        | none => agg.latest_event_start
      event_sizes :=
        agg.event_sizes ++
          (match result.event_numEntrants with
           | some n => if n = 0 then [] else [n]
           | none => [])
      event_state_counts :=
        match result.tournament_addrState with
        | some st =>
          if st = "" then agg.event_state_counts
          else bumpState agg.event_state_counts ((_normalize_state (some st)).getD "UNKNOWN")
        | none => agg.event_state_counts }
  result.sets.foldl (stepSet event_weight result.seed_num target_character) agg1

/-- The freshly created aggregate of `metrics.py` lines 106-111: identity
fields from the first record seen for the player, all counters zero. -/
def initAgg (result : PlayerEventResult) : PlayerAggregate :=
  { player_id := result.player_id
    gamer_tag := result.gamer_tag
    state := result.location_state
    tournaments := ∅ }

/-- First-match lookup in the insertion-ordered aggregate table. -/
def findAgg : List (Nat × PlayerAggregate) → Nat → Option PlayerAggregate
  | [], _ => none
  | (k, a) :: rest, pid => if k = pid then some a else findAgg rest pid

/-- Update the (first) entry with the given key in place. -/
def updateAgg : List (Nat × PlayerAggregate) → Nat →
    (PlayerAggregate → PlayerAggregate) → List (Nat × PlayerAggregate)
  | [], _, _ => []
  | (k, a) :: rest, pid, f =>
    if k = pid then (k, f a) :: rest else (k, a) :: updateAgg rest pid f

/-- One iteration of the outer loop of `compute_player_metrics` on the
aggregate table (`metrics.py` lines 103-163): fetch or create the player's
aggregate, then apply `stepRecord`. -/
noncomputable def applyRecord (target_character : String) (now_ts : Int)
    (aggs : List (Nat × PlayerAggregate)) (result : PlayerEventResult) :
    List (Nat × PlayerAggregate) :=
  match findAgg aggs result.player_id with
  | some _ =>
    updateAgg aggs result.player_id (fun a => stepRecord target_character now_ts a result)
  | none =>
    aggs ++ [(result.player_id, stepRecord target_character now_ts (initAgg result) result)]

/-- The aggregate table after folding the whole input sequence, in
insertion order (the Python `aggregates` dict). -/
noncomputable def foldAggregates (player_results : List PlayerEventResult)
    (target_character : String) (now_ts : Int) : List (Nat × PlayerAggregate) :=
  player_results.foldl (applyRecord target_character now_ts) []

/-- Arithmetic mean of a list of reals (`statistics.mean`, applied only to
non-empty lists in the source). -/
noncomputable def rmean (xs : List ℝ) : ℝ := xs.sum / (xs.length : ℝ)

/-- Maximum of a list of naturals (`max(...)` on a non-empty list of
non-negative entrant counts). -/
def natListMax (xs : List Nat) : Nat := xs.foldl max 0

/-- `max(agg.event_state_counts.items(), key=lambda item: item[1])`: the
first pair attaining the maximal count, in insertion order. -/
def topPair : List (String × Nat) → Option (String × Nat)
  | [] => none
  | p :: rest =>
    match topPair rest with
    | none => some p
    | some q => if q.2 > p.2 then some q else some p

/-- The region-inference block of `compute_player_metrics` (`metrics.py`
lines 184-196) on a per-region tally: when there is any tallied event,
take the first region with the maximal count; it is inferred, with its
share of the total as confidence, exactly when it is not the sentinel
`"UNKNOWN"` and that share exceeds `0.5`. -/
noncomputable def inferredPairOf (esc : List (String × Nat)) : Option (String × ℝ) :=
  let total : Nat := (esc.map Prod.snd).sum
  if total ≠ 0 then
    match topPair esc with
    | some tp =>
      if tp.1 ≠ "UNKNOWN" then
        if ((tp.2 : ℝ) / (total : ℝ)) > 0.5 then some (tp.1, (tp.2 : ℝ) / (total : ℝ))
        else none
      else none
    | none => none
  else none

/-- One emitted per-player output row (`metrics.py` lines 236-264). -/
structure Row where
  player_id : Nat
  gamer_tag : String
  state : Option String
  events_played : Nat
  sets_played : Nat
  win_rate : Option ℝ
  weighted_win_rate : Option ℝ
  avg_seed_delta : Option ℝ
  opponent_strength : Option ℝ
  character_sets : Nat
  character_win_rate : Option ℝ
  character_weighted_win_rate : Option ℝ
  character_usage_rate : ℝ
  upset_rate : Option ℝ
  activity_score : ℝ
  tournaments_played : Nat
  latest_event_start : Int
  avg_event_entrants : Option ℝ
  max_event_entrants : Option Nat
  events_with_known_state : Nat
  inferred_state : Option String
  inferred_state_confidence : Option ℝ
  home_state : Option String
  home_state_inferred : Bool
  home_state_confidence : Option ℝ

/-- The metrics finalizer: the row-construction block of
`compute_player_metrics` (`metrics.py` lines 170-264) on one aggregate.
Division guards are Python truthiness tests on the denominators; the
"assume target is main" fallback replaces the character fields when the
flag is set, no character set was counted and sets were played. -/
noncomputable def finalizeRow (agg : PlayerAggregate) (assume_target_main : Bool) : Row :=
  let win_rate : Option ℝ :=
    if agg.sets_played ≠ 0 then some ((agg.wins : ℝ) / (agg.sets_played : ℝ)) else none
  let weighted_win_rate : Option ℝ :=
    if agg.weight_sum ≠ 0 then some (agg.weighted_wins / agg.weight_sum) else none
  let avg_seed_delta : Option ℝ :=
    if agg.seed_deltas ≠ [] then some (rmean agg.seed_deltas) else none
  let opponent_strength : Option ℝ :=
    if agg.opponent_strength_values ≠ [] then some (rmean agg.opponent_strength_values)
    else none
  let avg_event_entrants : Option ℝ :=
    if agg.event_sizes ≠ [] then
      some (rmean (agg.event_sizes.map (fun n : Nat => (n : ℝ))))
    else none
  let max_event_entrants : Option Nat :=
    if agg.event_sizes ≠ [] then some (natListMax agg.event_sizes) else none
  let total_state_events : Nat := (agg.event_state_counts.map Prod.snd).sum
  let inferredPair : Option (String × ℝ) := inferredPairOf agg.event_state_counts
  let inferred_state : Option String := inferredPair.map Prod.fst
  let inferred_state_confidence : Option ℝ := inferredPair.map Prod.snd
  let explicit_state : Option String := _normalize_state agg.state
  let home_state : Option String :=
    match explicit_state with
    | some s => some s
    | none => inferred_state
  let home_state_inferred : Bool := explicit_state.isNone && inferred_state.isSome
  let home_state_confidence : Option ℝ :=
    if home_state_inferred then inferred_state_confidence
    else if explicit_state.isSome then some 1.0 else none
  let fallback : Prop :=
    assume_target_main = true ∧ agg.character_sets = 0 ∧ 0 < agg.sets_played
  let character_sets : Nat := if fallback then agg.sets_played else agg.character_sets
  let character_win_rate : Option ℝ :=
    if fallback then win_rate
    else if agg.character_sets ≠ 0 then
      some ((agg.character_wins : ℝ) / (agg.character_sets : ℝ))
    else none
  let character_weighted_win_rate : Option ℝ :=
    if fallback then weighted_win_rate
    else if agg.character_weight_sum ≠ 0 then
      some (agg.character_weighted_wins / agg.character_weight_sum)
    else none
  let character_usage_rate : ℝ :=
    if fallback then 1.0
    else if agg.sets_played ≠ 0 then (agg.character_sets : ℝ) / (agg.sets_played : ℝ)
    else 0
  let upset_rate : Option ℝ :=
    if agg.sets_vs_higher_seed ≠ 0 then
      some ((agg.wins_vs_higher_seed : ℝ) / (agg.sets_vs_higher_seed : ℝ))
    else none
  let activity_score : ℝ := (agg.events_played : ℝ) + 0.1 * (agg.sets_played : ℝ)
  { player_id := agg.player_id
    gamer_tag := agg.gamer_tag
    state := explicit_state
    events_played := agg.events_played
    sets_played := agg.sets_played
    win_rate := win_rate
    weighted_win_rate := weighted_win_rate
    avg_seed_delta := avg_seed_delta
    opponent_strength := opponent_strength
    character_sets := character_sets
    character_win_rate := character_win_rate
    character_weighted_win_rate := character_weighted_win_rate
    character_usage_rate := character_usage_rate
    upset_rate := upset_rate
    activity_score := activity_score
    tournaments_played := agg.tournaments.card
    latest_event_start := agg.latest_event_start
    avg_event_entrants := avg_event_entrants
    max_event_entrants := max_event_entrants
    events_with_known_state := total_state_events
    inferred_state := inferred_state
    inferred_state_confidence := inferred_state_confidence
    home_state := home_state
    home_state_inferred := home_state_inferred
    home_state_confidence := home_state_confidence }

/-- `compute_player_metrics` (`metrics.py` lines 94-271): fold the records
into per-player aggregates, skip aggregates with zero counted sets, and
emit one row per remaining aggregate, in aggregate insertion order. -/
noncomputable def compute_player_metrics (player_results : List PlayerEventResult)
    (target_character : String) (assume_target_main : Bool) (now_ts : Int) : List Row :=
  (foldAggregates player_results target_character now_ts).filterMap
    (fun pa =>
      if pa.2.sets_played = 0 then none else some (finalizeRow pa.2 assume_target_main))

attribute [ext] PlayerAggregate Row

/-- The first output row carrying the given player id, if any. -/
def rowFor (rows : List Row) (pid : Nat) : Option Row :=
  rows.find? (fun row => row.player_id == pid)

/-- The size-weight sub-expression of `_event_weight`, as a function of the
defaulted entrant count. -/
noncomputable def sizeWeight (num_entrants : Nat) : ℝ :=
  if Real.logb 2 ((num_entrants : ℝ) + 1) = 0 then 1.0
  else Real.logb 2 ((num_entrants : ℝ) + 1)

/-- The start-timestamp defaulting of `_event_weight`: an absent or zero
(falsy) start timestamp becomes `now_ts`. -/
def startDefault (startAt : Option Int) (now_ts : Int) : Int :=
  match startAt with
  | none => now_ts
  | some s => if s = 0 then now_ts else s

/-- The event-weight closed form claimed by the specification, at a given
entrant count and start timestamp: `max(0.1, size_weight *
exp(-max(0, (now - start) / 86400) / 90))`, with `size_weight =
log2(entrants + 1)` replaced by `1.0` exactly when that logarithm is zero.
Clearly named spec-side definition, to be compared with `_event_weight`. -/
noncomputable def eventWeightSpec (num_entrants : Nat) (start_at now_ts : Int) : ℝ :=
  max 0.1 (sizeWeight num_entrants *
    Real.exp (-(max 0 (((now_ts : ℝ) - (start_at : ℝ)) / 86400) / 90)))

/-- Folding a list of records into one player's aggregate. -/
noncomputable def foldRecords (target_character : String) (now_ts : Int)
    (agg : PlayerAggregate) (results : List PlayerEventResult) : PlayerAggregate :=
  results.foldl (stepRecord target_character now_ts) agg

/-- Continuing one player's (possibly not yet created) aggregate through a
list of records: a missing aggregate is created from the first record. -/
noncomputable def contPlayer (target_character : String) (now_ts : Int)
    (o : Option PlayerAggregate) (results : List PlayerEventResult) :
    Option PlayerAggregate :=
  results.foldl
    (fun o result =>
      some (stepRecord target_character now_ts (o.getD (initAgg result)) result)) o

/-- First-match count lookup in a per-region tally. -/
def tallyCount : List (String × Nat) → String → Nat
  | [], _ => 0
  | (k, c) :: rest, s => if k = s then c else tallyCount rest s

/-- Structural sanity of the aggregate table built by the fold: every
entry's aggregate carries its key as `player_id`, and keys are distinct. -/
def KeysOk (aggs : List (Nat × PlayerAggregate)) : Prop :=
  (∀ pa ∈ aggs, pa.2.player_id = pa.1) ∧ (aggs.map Prod.fst).Nodup

/-- Numeric invariants maintained by the fold on every aggregate: counter
dominations and the `0.1` per-set lower bound on the weight sum. -/
structure AggInv (a : PlayerAggregate) : Prop where
  wins_le : a.wins ≤ a.sets_played
  char_le_sets : a.character_sets ≤ a.sets_played
  char_wins_le : a.character_wins ≤ a.character_sets
  upsets_le : a.wins_vs_higher_seed ≤ a.sets_vs_higher_seed
  ww_nonneg : 0 ≤ a.weighted_wins
  ww_le_ws : a.weighted_wins ≤ a.weight_sum
  ws_lower : 0.1 * (a.sets_played : ℝ) ≤ a.weight_sum

/-- Per-record weight, as used once per record by the fold. -/
noncomputable def recordWeight (result : PlayerEventResult) (now_ts : Int) : ℝ :=
  _event_weight result.event_numEntrants result.event_startAt now_ts

/-- Number of a record's sets with a known result. -/
def knownSets (result : PlayerEventResult) : Nat :=
  result.sets.countP (fun s => s.won.isSome)

/-- Number of a record's sets with a known, won result. -/
def wonSets (result : PlayerEventResult) : Nat :=
  result.sets.countP (fun s => s.won == some true)

/-- Number of a record's counted sets against a higher-seeded opponent. -/
def upsetSets (result : PlayerEventResult) : Nat :=
  result.sets.countP (fun s => s.won.isSome && upsetCandidate s result.seed_num)

/-- Number of a record's counted, won sets against a higher-seeded opponent. -/
def upsetWins (result : PlayerEventResult) : Nat :=
  result.sets.countP (fun s => (s.won == some true) && upsetCandidate s result.seed_num)

/-- Number of a record's counted sets using the target character. -/
def charSets (target_character : String) (result : PlayerEventResult) : Nat :=
  result.sets.countP (fun s => s.won.isSome && _uses_target_character s target_character)

/-- Number of a record's counted, won sets using the target character. -/
def charWins (target_character : String) (result : PlayerEventResult) : Nat :=
  result.sets.countP
    (fun s => (s.won == some true) && _uses_target_character s target_character)

/-- Opponent-strength sample contributed by one counted set. -/
noncomputable def setStrengthOpt (s : SetRecord) : Option ℝ :=
  if s.won.isSome then _opponent_strength_value s else none

/-- Opponent-strength samples contributed by one record, in set order. -/
noncomputable def strengthsOf (result : PlayerEventResult) : List ℝ :=
  result.sets.filterMap setStrengthOpt

/-- Seed-delta contributed by one record, when both seed and placement are
known. -/
def deltaOpt (result : PlayerEventResult) : Option ℝ :=
  match result.seed_num, result.placement with
  | some sd, some pl => some ((sd : ℝ) - (pl : ℝ))
  | _, _ => none

/-- Event size contributed by one record (present and non-zero). -/
def sizeOpt (result : PlayerEventResult) : Option Nat :=
  match result.event_numEntrants with
  | some n => if n = 0 then none else some n
  | none => none

/-- Truthy start timestamp contributed by one record. -/
def startOpt (result : PlayerEventResult) : Option Int :=
  match result.event_startAt with
  | some s => if s = 0 then none else some s
  | none => none

/-- Truthy tournament name contributed by one record. -/
def tnameOpt (result : PlayerEventResult) : Option String :=
  match result.tournament_name with
  | some nm => if nm = "" then none else some nm
  | none => none

/-- Normalized region key tallied by one record (present, non-empty
`addrState`). -/
def stateKeyOpt (result : PlayerEventResult) : Option String :=
  match result.tournament_addrState with
  | some st => if st = "" then none else some ((_normalize_state (some st)).getD "UNKNOWN")
  | none => none

/-- Concrete aggregate exercising the fallback override: four counted sets,
two wins, no character set. -/
def exAggFallback : PlayerAggregate :=
  { player_id := 7, gamer_tag := "p7", state := none, tournaments := ∅,
    events_played := 2, sets_played := 4, wins := 2, weight_sum := 4 }

/-- Concrete record whose single set has an unknown result. -/
def exRecNoResult : PlayerEventResult :=
  { player_id := 5, gamer_tag := "p5", seed_num := none, placement := none,
    location_state := none, event_numEntrants := none, event_startAt := none,
    tournament_name := none, tournament_addrState := none,
    sets := [{ won := none, opponent_seed := none, opponent_placement := none,
               characters := [] }] }

/-- Concrete record with one counted, won set against opponent seed 2. -/
def exRecWin : PlayerEventResult :=
  { player_id := 9, gamer_tag := "p9", seed_num := some 5, placement := some 3,
    location_state := none, event_numEntrants := some 32, event_startAt := none,
    tournament_name := some "T", tournament_addrState := none,
    sets := [{ won := some true, opponent_seed := some 2, opponent_placement := none,
               characters := [] }] }

/-- Two records for the same player id differing only in the display tag. -/
def exRecTagA : PlayerEventResult :=
  { player_id := 1, gamer_tag := "A", seed_num := none, placement := none,
    location_state := none, event_numEntrants := none, event_startAt := none,
    tournament_name := none, tournament_addrState := none,
    sets := [{ won := some true, opponent_seed := none, opponent_placement := none,
               characters := [] }] }

/-- Same player id as `exRecTagA` but a different display tag. -/
def exRecTagB : PlayerEventResult :=
  { exRecTagA with gamer_tag := "B" }

/-- Concrete aggregate with tally GA 6, FL 4 and no explicit region. -/
def exAggGA : PlayerAggregate :=
  { player_id := 11, gamer_tag := "p11", state := none, tournaments := ∅,
    sets_played := 10, wins := 5,
    event_state_counts := [("GA", 6), ("FL", 4)] }

/-- Concrete aggregate with tied tally GA 5, FL 5 and no explicit region. -/
def exAggTie : PlayerAggregate :=
  { player_id := 12, gamer_tag := "p12", state := none, tournaments := ∅,
    sets_played := 10, wins := 5,
    event_state_counts := [("GA", 5), ("FL", 5)] }

/-- Concrete record whose tournament region code is present but empty. -/
def exRecEmptyState : PlayerEventResult :=
  { player_id := 3, gamer_tag := "p3", seed_num := none, placement := none,
    location_state := none, event_numEntrants := none, event_startAt := none,
    tournament_name := none, tournament_addrState := some "",
    sets := [] }

/-! ## Basic facts about the event weight -/

theorem _event_weight_eq (numEntrants : Option Nat) (startAt : Option Int) (now_ts : Int) :
    _event_weight numEntrants startAt now_ts =
      max 0.1 (sizeWeight (numEntrants.getD 0) *
        Real.exp (-(max 0 (((now_ts : ℝ) - ((startDefault startAt now_ts : Int) : ℝ)) / 86400)
          / 90))) := rfl

theorem logb_two_eq_zero_iff (n : Nat) : Real.logb 2 ((n : ℝ) + 1) = 0 ↔ n = 0 := by
  constructor
  · intro h
    by_contra hn
    have h1 : (1 : ℝ) < (n : ℝ) + 1 := by
      have : (1 : ℝ) ≤ (n : ℝ) := by exact_mod_cast Nat.one_le_iff_ne_zero.mpr hn
      linarith
    exact absurd h (ne_of_gt (Real.logb_pos (by norm_num) h1))
  · intro h
    subst h
    simp

theorem sizeWeight_one_le (n : Nat) : 1 ≤ sizeWeight n := by
  unfold sizeWeight
  by_cases h : Real.logb 2 ((n : ℝ) + 1) = 0
  · rw [if_pos h]; norm_num
  · rw [if_neg h]
    have hn : n ≠ 0 := fun h0 => h (by simp [h0])
    have h2 : (2 : ℝ) ≤ (n : ℝ) + 1 := by
      have : (1 : ℝ) ≤ (n : ℝ) := by exact_mod_cast Nat.one_le_iff_ne_zero.mpr hn
      linarith
    calc (1 : ℝ) = Real.logb 2 2 := (Real.logb_self_eq_one (by norm_num)).symm
    _ ≤ Real.logb 2 ((n : ℝ) + 1) :=
        Real.logb_le_logb_of_le (by norm_num) (by norm_num) h2

theorem sizeWeight_nonneg (n : Nat) : 0 ≤ sizeWeight n :=
  le_trans zero_le_one (sizeWeight_one_le n)

theorem sizeWeight_mono {n₁ n₂ : Nat} (h : n₁ ≤ n₂) : sizeWeight n₁ ≤ sizeWeight n₂ := by
  by_cases h1 : Real.logb 2 ((n₁ : ℝ) + 1) = 0
  · rw [sizeWeight, if_pos h1]
    exact le_trans (by norm_num) (sizeWeight_one_le n₂)
  · have hn1 : n₁ ≠ 0 := fun h0 => h1 (by simp [h0])
    have hn2 : n₂ ≠ 0 := fun h0 => hn1 (Nat.le_zero.mp (h0 ▸ h))
    have h2 : Real.logb 2 ((n₂ : ℝ) + 1) ≠ 0 := fun hz =>
      hn2 ((logb_two_eq_zero_iff n₂).mp hz)
    rw [sizeWeight, sizeWeight, if_neg h1, if_neg h2]
    have hpos : (0 : ℝ) < (n₁ : ℝ) + 1 := by positivity
    exact Real.logb_le_logb_of_le (by norm_num) hpos (by exact_mod_cast by linarith [h] : _)

theorem _event_weight_lb (numEntrants : Option Nat) (startAt : Option Int) (now_ts : Int) :
    (0.1 : ℝ) ≤ _event_weight numEntrants startAt now_ts := by
  rw [_event_weight_eq]
  exact le_max_left _ _

theorem _event_weight_pos (numEntrants : Option Nat) (startAt : Option Int) (now_ts : Int) :
    0 < _event_weight numEntrants startAt now_ts :=
  lt_of_lt_of_le (by norm_num) (_event_weight_lb numEntrants startAt now_ts)

theorem sizeWeight_one : sizeWeight 1 = 1 := by
  unfold sizeWeight
  have h2 : ((1 : Nat) : ℝ) + 1 = 2 := by norm_num
  rw [h2, if_neg (by rw [Real.logb_self_eq_one (by norm_num)]; norm_num),
    Real.logb_self_eq_one (by norm_num)]

theorem weight_one_zero_start : _event_weight (some 1) (some 0) 7776000 = 1 := by
  rw [_event_weight_eq]
  have hsd : startDefault (some 0) 7776000 = 7776000 := by simp [startDefault]
  rw [hsd]
  have : (((7776000 : Int) : ℝ) - ((7776000 : Int) : ℝ)) / 86400 = 0 := by norm_num
  rw [this, max_self, zero_div, neg_zero, Real.exp_zero]
  have hsw : sizeWeight ((some 1 : Option Nat).getD 0) = 1 := sizeWeight_one
  rw [hsw, one_mul]
  exact max_eq_right (by norm_num)

/-! ## Claims about the event weight and opponent strength -/

/-- C5 (amended): for every entrant count and every present-and-nonzero
start timestamp, `_event_weight` equals the claimed closed form
`eventWeightSpec`; an absent or zero (falsy) start timestamp defaults to
`now`; the size weight is replaced by `1.0` exactly when `log2(n+1)` is
zero, i.e. only when the defaulted entrant count is `0`; and the weight is
always positive. -/
theorem claim_C5 (numEntrants : Option Nat) (startAt : Option Int) (now_ts : Int) :
    (∀ s : Int, startAt = some s → s ≠ 0 →
      _event_weight numEntrants startAt now_ts =
        eventWeightSpec (numEntrants.getD 0) s now_ts) ∧
    ((startAt = none ∨ startAt = some 0) →
      _event_weight numEntrants startAt now_ts =
        eventWeightSpec (numEntrants.getD 0) now_ts now_ts) ∧
    (Real.logb 2 ((numEntrants.getD 0 : ℝ) + 1) = 0 ↔ numEntrants.getD 0 = 0) ∧
    0 < _event_weight numEntrants startAt now_ts := by
  refine ⟨?_, ?_, logb_two_eq_zero_iff _, _event_weight_pos _ _ _⟩
  · intro s hs hs0
    subst hs
    rw [_event_weight_eq, eventWeightSpec]
    have : startDefault (some s) now_ts = s := by simp [startDefault, hs0]
    rw [this]
  · intro h
    rcases h with h | h <;> subst h <;>
      · rw [_event_weight_eq, eventWeightSpec]
        simp [startDefault]

theorem claim_C5_witness :
    _event_weight (some 3) (some 86400) 172800 = eventWeightSpec 3 86400 172800 ∧
    0 < _event_weight (some 3) (some 86400) 172800 :=
  ⟨(claim_C5 (some 3) (some 86400) 172800).1 86400 rfl (by norm_num),
   (claim_C5 (some 3) (some 86400) 172800).2.2.2⟩

theorem claim_C5_counterexample :
    _event_weight (some 1) (some 0) 7776000 ≠ eventWeightSpec 1 0 7776000 := by
  have hR : eventWeightSpec 1 0 7776000 = max 0.1 (Real.exp (-1)) := by
    rw [eventWeightSpec, sizeWeight_one, one_mul]
    have h1 : (((7776000 : Int) : ℝ) - ((0 : Int) : ℝ)) / 86400 = 90 := by norm_num
    rw [h1, max_eq_right (by norm_num : (0 : ℝ) ≤ 90)]
    norm_num
  have hlt : max 0.1 (Real.exp (-1)) < 1 :=
    max_lt (by norm_num) (Real.exp_lt_one_iff.mpr (by norm_num))
  intro h
  rw [weight_one_zero_start, hR] at h
  exact (ne_of_lt hlt) h.symm

/-- C6 (amended): for a fixed start timestamp the event weight is
non-decreasing in the entrant count; and for present-and-nonzero start
timestamps it is non-increasing in the event's age `now - start`. -/
theorem claim_C6 (now_ts : Int) :
    (∀ (startAt : Option Int) (n₁ n₂ : Nat), n₁ ≤ n₂ →
      _event_weight (some n₁) startAt now_ts ≤ _event_weight (some n₂) startAt now_ts) ∧
    (∀ (numEntrants : Option Nat) (s₁ s₂ : Int), s₁ ≠ 0 → s₂ ≠ 0 →
      now_ts - s₁ ≤ now_ts - s₂ →
      _event_weight numEntrants (some s₂) now_ts ≤
        _event_weight numEntrants (some s₁) now_ts) := by
  constructor
  · intro startAt n₁ n₂ h
    rw [_event_weight_eq, _event_weight_eq]
    exact max_le_max le_rfl
      (mul_le_mul_of_nonneg_right (sizeWeight_mono h) (Real.exp_pos _).le)
  · intro numEntrants s₁ s₂ h1 h2 hage
    rw [_event_weight_eq, _event_weight_eq]
    have hd1 : startDefault (some s₁) now_ts = s₁ := by simp [startDefault, h1]
    have hd2 : startDefault (some s₂) now_ts = s₂ := by simp [startDefault, h2]
    rw [hd1, hd2]
    refine max_le_max le_rfl (mul_le_mul_of_nonneg_left ?_ (sizeWeight_nonneg _))
    rw [Real.exp_le_exp]
    have hc : ((now_ts : ℝ) - (s₁ : ℝ)) ≤ ((now_ts : ℝ) - (s₂ : ℝ)) := by
      exact_mod_cast hage
    have hmax : max 0 (((now_ts : ℝ) - (s₁ : ℝ)) / 86400) ≤
        max 0 (((now_ts : ℝ) - (s₂ : ℝ)) / 86400) :=
      max_le_max le_rfl (by linarith)
    linarith [hmax]

theorem claim_C6_witness :
    _event_weight (some 2) (some 86400) 172800 ≤ _event_weight (some 6) (some 86400) 172800 ∧
    _event_weight (some 4) (some 172800) 432000 ≤ _event_weight (some 4) (some 259200) 432000 :=
  ⟨(claim_C6 172800).1 (some 86400) 2 6 (by norm_num),
   (claim_C6 432000).2 (some 4) 259200 172800 (by norm_num) (by norm_num) (by norm_num)⟩

theorem claim_C6_counterexample :
    ¬ (_event_weight (some 1) (some 0) 7776000 ≤
        _event_weight (some 1) (some 3888000) 7776000) := by
  rw [not_le, weight_one_zero_start]
  have hR : _event_weight (some 1) (some 3888000) 7776000 =
      max 0.1 (Real.exp (-(1 / 2))) := by
    rw [_event_weight_eq]
    have hsd : startDefault (some 3888000) 7776000 = 3888000 := by
      simp [startDefault]
    have hsw : sizeWeight ((some 1 : Option Nat).getD 0) = 1 := sizeWeight_one
    rw [hsd, hsw, one_mul]
    have h1 : (((7776000 : Int) : ℝ) - ((3888000 : Int) : ℝ)) / 86400 = 45 := by norm_num
    rw [h1, max_eq_right (by norm_num : (0 : ℝ) ≤ 45)]
    norm_num
  rw [hR]
  exact max_lt (by norm_num) (Real.exp_lt_one_iff.mpr (by norm_num))

theorem invOpt_range {o : Option Nat} {v : ℝ} (h : invOpt o = some v) : 0 < v ∧ v ≤ 1 := by
  match o with
  | none => simp [invOpt] at h
  | some n =>
    by_cases hn : n = 0
    · simp [invOpt, hn] at h
    · rw [invOpt, if_pos hn] at h
      have h1 : (1 : ℝ) ≤ (n : ℝ) := by exact_mod_cast Nat.one_le_iff_ne_zero.mpr hn
      have h0 : (0 : ℝ) < (n : ℝ) := lt_of_lt_of_le one_pos h1
      obtain rfl : (1.0 : ℝ) / (n : ℝ) = v := by injection h
      exact ⟨div_pos (by norm_num) h0, by rw [div_le_one h0]; linarith⟩

/-- C7: opponent strength is `1/seed` when the opponent's seed is present
and non-zero, else `1/placement` when the placement is present and
non-zero, else absent; any returned value lies in `(0, 1]`. -/
theorem claim_C7 (s : SetRecord) :
    (∀ k : Nat, s.opponent_seed = some k → k ≠ 0 →
      _opponent_strength_value s = some (1 / (k : ℝ))) ∧
    ((s.opponent_seed = none ∨ s.opponent_seed = some 0) →
      ((∀ k : Nat, s.opponent_placement = some k → k ≠ 0 →
          _opponent_strength_value s = some (1 / (k : ℝ))) ∧
        ((s.opponent_placement = none ∨ s.opponent_placement = some 0) →
          _opponent_strength_value s = none))) ∧
    (∀ v : ℝ, _opponent_strength_value s = some v → 0 < v ∧ v ≤ 1) := by
  refine ⟨?_, ?_, ?_⟩
  · intro k hk hk0
    rw [_opponent_strength_value, hk, invOpt, if_pos hk0]
    norm_num
  · intro hseed
    have hs : invOpt s.opponent_seed = none := by
      rcases hseed with h | h <;> simp [invOpt, h]
    constructor
    · intro k hk hk0
      rw [_opponent_strength_value, hs, hk, invOpt, if_pos hk0]
      norm_num
    · intro hpl
      rw [_opponent_strength_value, hs]
      rcases hpl with h | h <;> simp [invOpt, h]
  · intro v hv
    rw [_opponent_strength_value] at hv
    rcases hseed : invOpt s.opponent_seed with _ | w
    · rw [hseed] at hv
      exact invOpt_range hv
    · rw [hseed] at hv
      injection hv with hv'
      exact hv' ▸ invOpt_range hseed

theorem claim_C7_witness :
    _opponent_strength_value
      { won := some true, opponent_seed := some 2, opponent_placement := some 5,
        characters := [] } = some (1 / (2 : ℝ)) ∧
    (0 < (1 / (2 : ℝ)) ∧ (1 / (2 : ℝ)) ≤ 1) := by
  have h := claim_C7
    { won := some true, opponent_seed := some 2, opponent_placement := some 5,
      characters := [] }
  have h1 := h.1 2 rfl (by norm_num)
  exact ⟨h1, h.2.2 _ h1⟩

/-! ## Projections of the finalizer -/

theorem finalizeRow_player_id (a : PlayerAggregate) (b : Bool) :
    (finalizeRow a b).player_id = a.player_id := rfl

theorem finalizeRow_gamer_tag (a : PlayerAggregate) (b : Bool) :
    (finalizeRow a b).gamer_tag = a.gamer_tag := rfl

theorem finalizeRow_state (a : PlayerAggregate) (b : Bool) :
    (finalizeRow a b).state = _normalize_state a.state := rfl

theorem finalizeRow_events_played (a : PlayerAggregate) (b : Bool) :
    (finalizeRow a b).events_played = a.events_played := rfl

theorem finalizeRow_sets_played (a : PlayerAggregate) (b : Bool) :
    (finalizeRow a b).sets_played = a.sets_played := rfl

theorem finalizeRow_win_rate (a : PlayerAggregate) (b : Bool) :
    (finalizeRow a b).win_rate =
      if a.sets_played ≠ 0 then some ((a.wins : ℝ) / (a.sets_played : ℝ)) else none := rfl

theorem finalizeRow_weighted_win_rate (a : PlayerAggregate) (b : Bool) :
    (finalizeRow a b).weighted_win_rate =
      if a.weight_sum ≠ 0 then some (a.weighted_wins / a.weight_sum) else none := rfl

theorem finalizeRow_avg_seed_delta (a : PlayerAggregate) (b : Bool) :
    (finalizeRow a b).avg_seed_delta =
      if a.seed_deltas ≠ [] then some (rmean a.seed_deltas) else none := rfl

theorem finalizeRow_opponent_strength (a : PlayerAggregate) (b : Bool) :
    (finalizeRow a b).opponent_strength =
      if a.opponent_strength_values ≠ [] then some (rmean a.opponent_strength_values)
      else none := rfl

theorem finalizeRow_character_sets (a : PlayerAggregate) (b : Bool) :
    (finalizeRow a b).character_sets =
      if b = true ∧ a.character_sets = 0 ∧ 0 < a.sets_played then a.sets_played
      else a.character_sets := rfl

theorem finalizeRow_character_win_rate (a : PlayerAggregate) (b : Bool) :
    (finalizeRow a b).character_win_rate =
      if b = true ∧ a.character_sets = 0 ∧ 0 < a.sets_played then
        (if a.sets_played ≠ 0 then some ((a.wins : ℝ) / (a.sets_played : ℝ)) else none)
      else if a.character_sets ≠ 0 then
        some ((a.character_wins : ℝ) / (a.character_sets : ℝ))
      else none := rfl

theorem finalizeRow_character_weighted_win_rate (a : PlayerAggregate) (b : Bool) :
    (finalizeRow a b).character_weighted_win_rate =
      if b = true ∧ a.character_sets = 0 ∧ 0 < a.sets_played then
        (if a.weight_sum ≠ 0 then some (a.weighted_wins / a.weight_sum) else none)
      else if a.character_weight_sum ≠ 0 then
        some (a.character_weighted_wins / a.character_weight_sum)
      else none := rfl

theorem finalizeRow_character_usage_rate (a : PlayerAggregate) (b : Bool) :
    (finalizeRow a b).character_usage_rate =
      if b = true ∧ a.character_sets = 0 ∧ 0 < a.sets_played then 1.0
      else if a.sets_played ≠ 0 then (a.character_sets : ℝ) / (a.sets_played : ℝ)
      else 0 := rfl

theorem finalizeRow_upset_rate (a : PlayerAggregate) (b : Bool) :
    (finalizeRow a b).upset_rate =
      if a.sets_vs_higher_seed ≠ 0 then
        some ((a.wins_vs_higher_seed : ℝ) / (a.sets_vs_higher_seed : ℝ))
      else none := rfl

theorem finalizeRow_activity_score (a : PlayerAggregate) (b : Bool) :
    (finalizeRow a b).activity_score =
      (a.events_played : ℝ) + 0.1 * (a.sets_played : ℝ) := rfl

theorem finalizeRow_tournaments_played (a : PlayerAggregate) (b : Bool) :
    (finalizeRow a b).tournaments_played = a.tournaments.card := rfl

theorem finalizeRow_latest_event_start (a : PlayerAggregate) (b : Bool) :
    (finalizeRow a b).latest_event_start = a.latest_event_start := rfl

theorem finalizeRow_avg_event_entrants (a : PlayerAggregate) (b : Bool) :
    (finalizeRow a b).avg_event_entrants =
      if a.event_sizes ≠ [] then
        some (rmean (a.event_sizes.map (fun n : Nat => (n : ℝ))))
      else none := rfl

theorem finalizeRow_max_event_entrants (a : PlayerAggregate) (b : Bool) :
    (finalizeRow a b).max_event_entrants =
      if a.event_sizes ≠ [] then some (natListMax a.event_sizes) else none := rfl

theorem finalizeRow_events_with_known_state (a : PlayerAggregate) (b : Bool) :
    (finalizeRow a b).events_with_known_state =
      (a.event_state_counts.map Prod.snd).sum := rfl

theorem finalizeRow_inferred_state (a : PlayerAggregate) (b : Bool) :
    (finalizeRow a b).inferred_state =
      (inferredPairOf a.event_state_counts).map Prod.fst := rfl

theorem finalizeRow_inferred_state_confidence (a : PlayerAggregate) (b : Bool) :
    (finalizeRow a b).inferred_state_confidence =
      (inferredPairOf a.event_state_counts).map Prod.snd := rfl

theorem finalizeRow_home_state (a : PlayerAggregate) (b : Bool) :
    (finalizeRow a b).home_state =
      match _normalize_state a.state with
      | some s => some s
      | none => (inferredPairOf a.event_state_counts).map Prod.fst := rfl

theorem finalizeRow_home_state_inferred (a : PlayerAggregate) (b : Bool) :
    (finalizeRow a b).home_state_inferred =
      ((_normalize_state a.state).isNone &&
        ((inferredPairOf a.event_state_counts).map Prod.fst).isSome) := rfl

theorem finalizeRow_home_state_confidence (a : PlayerAggregate) (b : Bool) :
    (finalizeRow a b).home_state_confidence =
      if ((_normalize_state a.state).isNone &&
          ((inferredPairOf a.event_state_counts).map Prod.fst).isSome) then
        (inferredPairOf a.event_state_counts).map Prod.snd
      else if (_normalize_state a.state).isSome then some 1.0 else none := rfl

/-! ## The fallback override -/

/-- C1: for every aggregate finalized with the "assume target is main" flag
set, when no character set was counted and sets were played, the emitted
row takes `character_sets` from `sets_played`, `character_win_rate` from
`win_rate`, `character_weighted_win_rate` from `weighted_win_rate`, and
`character_usage_rate = 1`. -/
theorem claim_C1 (agg : PlayerAggregate) (h0 : agg.character_sets = 0)
    (h1 : 0 < agg.sets_played) :
    (finalizeRow agg true).character_sets = agg.sets_played ∧
    (finalizeRow agg true).character_win_rate = (finalizeRow agg true).win_rate ∧
    (finalizeRow agg true).character_weighted_win_rate =
      (finalizeRow agg true).weighted_win_rate ∧
    (finalizeRow agg true).character_usage_rate = 1 := by
  have hf : (true = true ∧ agg.character_sets = 0 ∧ 0 < agg.sets_played) := ⟨rfl, h0, h1⟩
  refine ⟨?_, ?_, ?_, ?_⟩
  · rw [finalizeRow_character_sets, if_pos hf]
  · rw [finalizeRow_character_win_rate, finalizeRow_win_rate, if_pos hf]
  · rw [finalizeRow_character_weighted_win_rate, finalizeRow_weighted_win_rate, if_pos hf]
  · rw [finalizeRow_character_usage_rate, if_pos hf]
    norm_num

theorem claim_C1_witness :
    (finalizeRow exAggFallback true).character_sets = 4 ∧
    (finalizeRow exAggFallback true).character_usage_rate = 1 ∧
    (finalizeRow exAggFallback true).character_win_rate = some (0.5 : ℝ) ∧
    (finalizeRow exAggFallback true).win_rate = some (0.5 : ℝ) := by
  have h := claim_C1 exAggFallback rfl (by norm_num [exAggFallback])
  have hwr : (finalizeRow exAggFallback true).win_rate = some (0.5 : ℝ) := by
    rw [finalizeRow_win_rate]
    norm_num [exAggFallback]
  exact ⟨h.1, h.2.2.2, h.2.1.trans hwr, hwr⟩

/-! ## Characterizing the inner fold over a record's sets -/

theorem foldSets_sets_played (w : ℝ) (sn : Option Nat) (t : String) :
    ∀ (sets : List SetRecord) (B : PlayerAggregate),
    (sets.foldl (stepSet w sn t) B).sets_played =
      B.sets_played + sets.countP (fun s => s.won.isSome)
  | [], B => by simp
  | s :: rest, B => by
    rw [List.foldl_cons, foldSets_sets_played w sn t rest, List.countP_cons]
    cases h : s.won with
    | none => simp [stepSet, h]
    | some b => simp [stepSet, h]; omega

theorem foldSets_wins (w : ℝ) (sn : Option Nat) (t : String) :
    ∀ (sets : List SetRecord) (B : PlayerAggregate),
    (sets.foldl (stepSet w sn t) B).wins =
      B.wins + sets.countP (fun s => s.won == some true)
  | [], B => by simp
  | s :: rest, B => by
    rw [List.foldl_cons, foldSets_wins w sn t rest, List.countP_cons]
    cases h : s.won with
    | none => simp [stepSet, h]
    | some b => cases b <;> simp [stepSet, h] <;> omega

theorem foldSets_weight_sum (w : ℝ) (sn : Option Nat) (t : String) :
    ∀ (sets : List SetRecord) (B : PlayerAggregate),
    (sets.foldl (stepSet w sn t) B).weight_sum =
      B.weight_sum + (sets.countP (fun s => s.won.isSome) : ℝ) * w
  | [], B => by simp
  | s :: rest, B => by
    rw [List.foldl_cons, foldSets_weight_sum w sn t rest, List.countP_cons]
    cases h : s.won with
    | none => simp [stepSet, h]
    | some b => simp [stepSet, h]; push_cast; ring

theorem foldSets_weighted_wins (w : ℝ) (sn : Option Nat) (t : String) :
    ∀ (sets : List SetRecord) (B : PlayerAggregate),
    (sets.foldl (stepSet w sn t) B).weighted_wins =
      B.weighted_wins + (sets.countP (fun s => s.won == some true) : ℝ) * w
  | [], B => by simp
  | s :: rest, B => by
    rw [List.foldl_cons, foldSets_weighted_wins w sn t rest, List.countP_cons]
    cases h : s.won with
    | none => simp [stepSet, h]
    | some b => cases b <;> simp [stepSet, h] <;> push_cast <;> ring

theorem foldSets_sets_vs_higher_seed (w : ℝ) (sn : Option Nat) (t : String) :
    ∀ (sets : List SetRecord) (B : PlayerAggregate),
    (sets.foldl (stepSet w sn t) B).sets_vs_higher_seed =
      B.sets_vs_higher_seed + sets.countP (fun s => s.won.isSome && upsetCandidate s sn)
  | [], B => by simp
  | s :: rest, B => by
    rw [List.foldl_cons, foldSets_sets_vs_higher_seed w sn t rest, List.countP_cons]
    cases h : s.won with
    | none => simp [stepSet, h]
    | some b => cases hu : upsetCandidate s sn <;> simp [stepSet, h, hu] <;> omega

theorem foldSets_wins_vs_higher_seed (w : ℝ) (sn : Option Nat) (t : String) :
    ∀ (sets : List SetRecord) (B : PlayerAggregate),
    (sets.foldl (stepSet w sn t) B).wins_vs_higher_seed =
      B.wins_vs_higher_seed +
        sets.countP (fun s => (s.won == some true) && upsetCandidate s sn)
  | [], B => by simp
  | s :: rest, B => by
    rw [List.foldl_cons, foldSets_wins_vs_higher_seed w sn t rest, List.countP_cons]
    cases h : s.won with
    | none => simp [stepSet, h]
    | some b =>
      cases b <;> cases hu : upsetCandidate s sn <;> simp [stepSet, h, hu] <;> omega

theorem foldSets_character_sets (w : ℝ) (sn : Option Nat) (t : String) :
    ∀ (sets : List SetRecord) (B : PlayerAggregate),
    (sets.foldl (stepSet w sn t) B).character_sets =
      B.character_sets + sets.countP (fun s => s.won.isSome && _uses_target_character s t)
  | [], B => by simp
  | s :: rest, B => by
    rw [List.foldl_cons, foldSets_character_sets w sn t rest, List.countP_cons]
    cases h : s.won with
    | none => simp [stepSet, h]
    | some b => cases hu : _uses_target_character s t <;> simp [stepSet, h, hu] <;> omega

theorem foldSets_character_wins (w : ℝ) (sn : Option Nat) (t : String) :
    ∀ (sets : List SetRecord) (B : PlayerAggregate),
    (sets.foldl (stepSet w sn t) B).character_wins =
      B.character_wins +
        sets.countP (fun s => (s.won == some true) && _uses_target_character s t)
  | [], B => by simp
  | s :: rest, B => by
    rw [List.foldl_cons, foldSets_character_wins w sn t rest, List.countP_cons]
    cases h : s.won with
    | none => simp [stepSet, h]
    | some b =>
      cases b <;> cases hu : _uses_target_character s t <;> simp [stepSet, h, hu] <;> omega

theorem foldSets_character_weighted_wins (w : ℝ) (sn : Option Nat) (t : String) :
    ∀ (sets : List SetRecord) (B : PlayerAggregate),
    (sets.foldl (stepSet w sn t) B).character_weighted_wins =
      B.character_weighted_wins +
        (sets.countP (fun s => (s.won == some true) && _uses_target_character s t) : ℝ) * w
  | [], B => by simp
  | s :: rest, B => by
    rw [List.foldl_cons, foldSets_character_weighted_wins w sn t rest, List.countP_cons]
    cases h : s.won with
    | none => simp [stepSet, h]
    | some b =>
      cases b <;> cases hu : _uses_target_character s t <;> simp [stepSet, h, hu] <;>
        push_cast <;> ring

theorem foldSets_character_weight_sum (w : ℝ) (sn : Option Nat) (t : String) :
    ∀ (sets : List SetRecord) (B : PlayerAggregate),
    (sets.foldl (stepSet w sn t) B).character_weight_sum =
      B.character_weight_sum +
        (sets.countP (fun s => s.won.isSome && _uses_target_character s t) : ℝ) * w
  | [], B => by simp
  | s :: rest, B => by
    rw [List.foldl_cons, foldSets_character_weight_sum w sn t rest, List.countP_cons]
    cases h : s.won with
    | none => simp [stepSet, h]
    | some b =>
      cases hu : _uses_target_character s t <;> simp [stepSet, h, hu] <;>
        push_cast <;> ring

theorem foldSets_opponent_strength_values (w : ℝ) (sn : Option Nat) (t : String) :
    ∀ (sets : List SetRecord) (B : PlayerAggregate),
    (sets.foldl (stepSet w sn t) B).opponent_strength_values =
      B.opponent_strength_values ++ sets.filterMap setStrengthOpt
  | [], B => by simp
  | s :: rest, B => by
    rw [List.foldl_cons, foldSets_opponent_strength_values w sn t rest]
    cases h : s.won with
    | none => simp [stepSet, h, setStrengthOpt, List.filterMap_cons]
    | some b =>
      cases hv : _opponent_strength_value s <;>
        simp [stepSet, h, hv, setStrengthOpt, List.filterMap_cons]

theorem foldSets_untouched (w : ℝ) (sn : Option Nat) (t : String) :
    ∀ (sets : List SetRecord) (B : PlayerAggregate),
    (sets.foldl (stepSet w sn t) B).player_id = B.player_id ∧
    (sets.foldl (stepSet w sn t) B).gamer_tag = B.gamer_tag ∧
    (sets.foldl (stepSet w sn t) B).state = B.state ∧
    (sets.foldl (stepSet w sn t) B).tournaments = B.tournaments ∧
    (sets.foldl (stepSet w sn t) B).events_played = B.events_played ∧
    (sets.foldl (stepSet w sn t) B).seed_deltas = B.seed_deltas ∧
    (sets.foldl (stepSet w sn t) B).latest_event_start = B.latest_event_start ∧
    (sets.foldl (stepSet w sn t) B).event_sizes = B.event_sizes ∧
    (sets.foldl (stepSet w sn t) B).event_state_counts = B.event_state_counts
  | [], B => by simp
  | s :: rest, B => by
    rw [List.foldl_cons]
    have ih := foldSets_untouched w sn t rest (stepSet w sn t B s)
    cases h : s.won with
    | none => simpa [stepSet, h] using ih
    | some b => simpa [stepSet, h] using ih

/-! ## Characterizing one record's effect on an aggregate -/

theorem stepRecord_ids (t : String) (now : Int) (A : PlayerAggregate)
    (r : PlayerEventResult) :
    (stepRecord t now A r).player_id = A.player_id ∧
    (stepRecord t now A r).gamer_tag = A.gamer_tag ∧
    (stepRecord t now A r).state = A.state := by
  simp only [stepRecord]
  refine ⟨((foldSets_untouched _ _ _ _ _).1).trans rfl,
    ((foldSets_untouched _ _ _ _ _).2.1).trans rfl,
    ((foldSets_untouched _ _ _ _ _).2.2.1).trans rfl⟩

theorem stepRecord_events_played (t : String) (now : Int) (A : PlayerAggregate)
    (r : PlayerEventResult) :
    (stepRecord t now A r).events_played = A.events_played + 1 := by
  simp only [stepRecord]
  exact ((foldSets_untouched _ _ _ _ _).2.2.2.2.1).trans rfl

theorem stepRecord_sets_played (t : String) (now : Int) (A : PlayerAggregate)
    (r : PlayerEventResult) :
    (stepRecord t now A r).sets_played = A.sets_played + knownSets r := by
  simp only [stepRecord]
  rw [foldSets_sets_played]
  rfl

theorem stepRecord_wins (t : String) (now : Int) (A : PlayerAggregate)
    (r : PlayerEventResult) :
    (stepRecord t now A r).wins = A.wins + wonSets r := by
  simp only [stepRecord]
  rw [foldSets_wins]
  rfl

theorem stepRecord_weight_sum (t : String) (now : Int) (A : PlayerAggregate)
    (r : PlayerEventResult) :
    (stepRecord t now A r).weight_sum =
      A.weight_sum + (knownSets r : ℝ) * recordWeight r now := by
  simp only [stepRecord]
  rw [foldSets_weight_sum]
  rfl

theorem stepRecord_weighted_wins (t : String) (now : Int) (A : PlayerAggregate)
    (r : PlayerEventResult) :
    (stepRecord t now A r).weighted_wins =
      A.weighted_wins + (wonSets r : ℝ) * recordWeight r now := by
  simp only [stepRecord]
  rw [foldSets_weighted_wins]
  rfl

theorem stepRecord_sets_vs_higher_seed (t : String) (now : Int) (A : PlayerAggregate)
    (r : PlayerEventResult) :
    (stepRecord t now A r).sets_vs_higher_seed =
      A.sets_vs_higher_seed + upsetSets r := by
  simp only [stepRecord]
  rw [foldSets_sets_vs_higher_seed]
  rfl

theorem stepRecord_wins_vs_higher_seed (t : String) (now : Int) (A : PlayerAggregate)
    (r : PlayerEventResult) :
    (stepRecord t now A r).wins_vs_higher_seed =
      A.wins_vs_higher_seed + upsetWins r := by
  simp only [stepRecord]
  rw [foldSets_wins_vs_higher_seed]
  rfl

theorem stepRecord_character_sets (t : String) (now : Int) (A : PlayerAggregate)
    (r : PlayerEventResult) :
    (stepRecord t now A r).character_sets = A.character_sets + charSets t r := by
  simp only [stepRecord]
  rw [foldSets_character_sets]
  rfl

theorem stepRecord_character_wins (t : String) (now : Int) (A : PlayerAggregate)
    (r : PlayerEventResult) :
    (stepRecord t now A r).character_wins = A.character_wins + charWins t r := by
  simp only [stepRecord]
  rw [foldSets_character_wins]
  rfl

theorem stepRecord_character_weighted_wins (t : String) (now : Int) (A : PlayerAggregate)
    (r : PlayerEventResult) :
    (stepRecord t now A r).character_weighted_wins =
      A.character_weighted_wins + (charWins t r : ℝ) * recordWeight r now := by
  simp only [stepRecord]
  rw [foldSets_character_weighted_wins]
  rfl

theorem stepRecord_character_weight_sum (t : String) (now : Int) (A : PlayerAggregate)
    (r : PlayerEventResult) :
    (stepRecord t now A r).character_weight_sum =
      A.character_weight_sum + (charSets t r : ℝ) * recordWeight r now := by
  simp only [stepRecord]
  rw [foldSets_character_weight_sum]
  rfl

theorem stepRecord_opponent_strength_values (t : String) (now : Int)
    (A : PlayerAggregate) (r : PlayerEventResult) :
    (stepRecord t now A r).opponent_strength_values =
      A.opponent_strength_values ++ strengthsOf r := by
  simp only [stepRecord]
  rw [foldSets_opponent_strength_values]
  rfl

theorem stepRecord_tournaments (t : String) (now : Int) (A : PlayerAggregate)
    (r : PlayerEventResult) :
    (stepRecord t now A r).tournaments =
      (match tnameOpt r with
       | some nm => insert nm A.tournaments
       | none => A.tournaments) := by
  simp only [stepRecord]
  rw [(foldSets_untouched _ _ _ _ _).2.2.2.1]
  cases h : r.tournament_name with
  | none => simp [tnameOpt, h]
  | some nm =>
    by_cases hnm : nm = "" <;> simp [tnameOpt, h, hnm]

theorem stepRecord_seed_deltas (t : String) (now : Int) (A : PlayerAggregate)
    (r : PlayerEventResult) :
    (stepRecord t now A r).seed_deltas = A.seed_deltas ++ (deltaOpt r).toList := by
  simp only [stepRecord]
  rw [(foldSets_untouched _ _ _ _ _).2.2.2.2.2.1]
  cases h1 : r.seed_num with
  | none => cases h2 : r.placement <;> simp [deltaOpt, h1, h2]
  | some sd => cases h2 : r.placement <;> simp [deltaOpt, h1, h2]

theorem stepRecord_latest_event_start (t : String) (now : Int) (A : PlayerAggregate)
    (r : PlayerEventResult) :
    (stepRecord t now A r).latest_event_start =
      (match startOpt r with
       | some s => max A.latest_event_start s
       | none => A.latest_event_start) := by
  simp only [stepRecord]
  rw [(foldSets_untouched _ _ _ _ _).2.2.2.2.2.2.1]
  cases h : r.event_startAt with
  | none => simp [startOpt, h]
  | some s =>
    by_cases hs : s = 0
    · simp [startOpt, h, hs]
    · simp only [startOpt, h, if_neg hs]
      by_cases hlt : A.latest_event_start < s
      · rw [if_pos ⟨hs, hlt⟩]
        exact (max_eq_right hlt.le).symm
      · rw [if_neg (fun hc => hlt hc.2)]
        exact (max_eq_left (not_lt.mp hlt)).symm

theorem stepRecord_event_sizes (t : String) (now : Int) (A : PlayerAggregate)
    (r : PlayerEventResult) :
    (stepRecord t now A r).event_sizes = A.event_sizes ++ (sizeOpt r).toList := by
  simp only [stepRecord]
  rw [(foldSets_untouched _ _ _ _ _).2.2.2.2.2.2.2.1]
  cases h : r.event_numEntrants with
  | none => simp [sizeOpt, h]
  | some n => by_cases hn : n = 0 <;> simp [sizeOpt, h, hn]

theorem stepRecord_event_state_counts (t : String) (now : Int) (A : PlayerAggregate)
    (r : PlayerEventResult) :
    (stepRecord t now A r).event_state_counts =
      (match stateKeyOpt r with
       | some k => bumpState A.event_state_counts k
       | none => A.event_state_counts) := by
  simp only [stepRecord]
  rw [(foldSets_untouched _ _ _ _ _).2.2.2.2.2.2.2.2]
  cases h : r.tournament_addrState with
  | none => simp [stateKeyOpt, h]
  | some st => by_cases hst : st = "" <;> simp [stateKeyOpt, h, hst]

/-! ## Characterizing the fold over a list of records -/

theorem foldRecords_ids (t : String) (now : Int) :
    ∀ (l : List PlayerEventResult) (A : PlayerAggregate),
    (foldRecords t now A l).player_id = A.player_id ∧
    (foldRecords t now A l).gamer_tag = A.gamer_tag ∧
    (foldRecords t now A l).state = A.state
  | [], A => ⟨rfl, rfl, rfl⟩
  | r :: rest, A => by
    have ih := foldRecords_ids t now rest (stepRecord t now A r)
    have hs := stepRecord_ids t now A r
    exact ⟨ih.1.trans hs.1, ih.2.1.trans hs.2.1, ih.2.2.trans hs.2.2⟩

theorem foldRecords_events_played (t : String) (now : Int) :
    ∀ (l : List PlayerEventResult) (A : PlayerAggregate),
    (foldRecords t now A l).events_played = A.events_played + l.length
  | [], A => by simp [foldRecords]
  | r :: rest, A => by
    show (foldRecords t now (stepRecord t now A r) rest).events_played = _
    rw [foldRecords_events_played t now rest, stepRecord_events_played]
    simp
    omega

theorem foldRecords_sets_played (t : String) (now : Int) :
    ∀ (l : List PlayerEventResult) (A : PlayerAggregate),
    (foldRecords t now A l).sets_played = A.sets_played + (l.map knownSets).sum
  | [], A => by simp [foldRecords]
  | r :: rest, A => by
    show (foldRecords t now (stepRecord t now A r) rest).sets_played = _
    rw [foldRecords_sets_played t now rest, stepRecord_sets_played]
    simp
    omega

theorem foldRecords_wins (t : String) (now : Int) :
    ∀ (l : List PlayerEventResult) (A : PlayerAggregate),
    (foldRecords t now A l).wins = A.wins + (l.map wonSets).sum
  | [], A => by simp [foldRecords]
  | r :: rest, A => by
    show (foldRecords t now (stepRecord t now A r) rest).wins = _
    rw [foldRecords_wins t now rest, stepRecord_wins]
    simp
    omega

theorem foldRecords_sets_vs_higher_seed (t : String) (now : Int) :
    ∀ (l : List PlayerEventResult) (A : PlayerAggregate),
    (foldRecords t now A l).sets_vs_higher_seed =
      A.sets_vs_higher_seed + (l.map upsetSets).sum
  | [], A => by simp [foldRecords]
  | r :: rest, A => by
    show (foldRecords t now (stepRecord t now A r) rest).sets_vs_higher_seed = _
    rw [foldRecords_sets_vs_higher_seed t now rest, stepRecord_sets_vs_higher_seed]
    simp
    omega

theorem foldRecords_wins_vs_higher_seed (t : String) (now : Int) :
    ∀ (l : List PlayerEventResult) (A : PlayerAggregate),
    (foldRecords t now A l).wins_vs_higher_seed =
      A.wins_vs_higher_seed + (l.map upsetWins).sum
  | [], A => by simp [foldRecords]
  | r :: rest, A => by
    show (foldRecords t now (stepRecord t now A r) rest).wins_vs_higher_seed = _
    rw [foldRecords_wins_vs_higher_seed t now rest, stepRecord_wins_vs_higher_seed]
    simp
    omega

theorem foldRecords_character_sets (t : String) (now : Int) :
    ∀ (l : List PlayerEventResult) (A : PlayerAggregate),
    (foldRecords t now A l).character_sets =
      A.character_sets + (l.map (charSets t)).sum
  | [], A => by simp [foldRecords]
  | r :: rest, A => by
    show (foldRecords t now (stepRecord t now A r) rest).character_sets = _
    rw [foldRecords_character_sets t now rest, stepRecord_character_sets]
    simp
    omega

theorem foldRecords_character_wins (t : String) (now : Int) :
    ∀ (l : List PlayerEventResult) (A : PlayerAggregate),
    (foldRecords t now A l).character_wins =
      A.character_wins + (l.map (charWins t)).sum
  | [], A => by simp [foldRecords]
  | r :: rest, A => by
    show (foldRecords t now (stepRecord t now A r) rest).character_wins = _
    rw [foldRecords_character_wins t now rest, stepRecord_character_wins]
    simp
    omega

theorem foldRecords_weight_sum (t : String) (now : Int) :
    ∀ (l : List PlayerEventResult) (A : PlayerAggregate),
    (foldRecords t now A l).weight_sum =
      A.weight_sum + (l.map (fun r => (knownSets r : ℝ) * recordWeight r now)).sum
  | [], A => by simp [foldRecords]
  | r :: rest, A => by
    show (foldRecords t now (stepRecord t now A r) rest).weight_sum = _
    rw [foldRecords_weight_sum t now rest, stepRecord_weight_sum]
    simp
    ring

theorem foldRecords_weighted_wins (t : String) (now : Int) :
    ∀ (l : List PlayerEventResult) (A : PlayerAggregate),
    (foldRecords t now A l).weighted_wins =
      A.weighted_wins + (l.map (fun r => (wonSets r : ℝ) * recordWeight r now)).sum
  | [], A => by simp [foldRecords]
  | r :: rest, A => by
    show (foldRecords t now (stepRecord t now A r) rest).weighted_wins = _
    rw [foldRecords_weighted_wins t now rest, stepRecord_weighted_wins]
    simp
    ring

theorem foldRecords_character_weighted_wins (t : String) (now : Int) :
    ∀ (l : List PlayerEventResult) (A : PlayerAggregate),
    (foldRecords t now A l).character_weighted_wins =
      A.character_weighted_wins +
        (l.map (fun r => (charWins t r : ℝ) * recordWeight r now)).sum
  | [], A => by simp [foldRecords]
  | r :: rest, A => by
    show (foldRecords t now (stepRecord t now A r) rest).character_weighted_wins = _
    rw [foldRecords_character_weighted_wins t now rest, stepRecord_character_weighted_wins]
    simp
    ring

theorem foldRecords_character_weight_sum (t : String) (now : Int) :
    ∀ (l : List PlayerEventResult) (A : PlayerAggregate),
    (foldRecords t now A l).character_weight_sum =
      A.character_weight_sum +
        (l.map (fun r => (charSets t r : ℝ) * recordWeight r now)).sum
  | [], A => by simp [foldRecords]
  | r :: rest, A => by
    show (foldRecords t now (stepRecord t now A r) rest).character_weight_sum = _
    rw [foldRecords_character_weight_sum t now rest, stepRecord_character_weight_sum]
    simp
    ring

theorem foldRecords_seed_deltas (t : String) (now : Int) :
    ∀ (l : List PlayerEventResult) (A : PlayerAggregate),
    (foldRecords t now A l).seed_deltas = A.seed_deltas ++ l.filterMap deltaOpt
  | [], A => by simp [foldRecords]
  | r :: rest, A => by
    show (foldRecords t now (stepRecord t now A r) rest).seed_deltas = _
    rw [foldRecords_seed_deltas t now rest, stepRecord_seed_deltas]
    cases h : deltaOpt r <;> simp [List.filterMap_cons, h]

theorem foldRecords_opponent_strength_values (t : String) (now : Int) :
    ∀ (l : List PlayerEventResult) (A : PlayerAggregate),
    (foldRecords t now A l).opponent_strength_values =
      A.opponent_strength_values ++ l.flatMap strengthsOf
  | [], A => by simp [foldRecords]
  | r :: rest, A => by
    show (foldRecords t now (stepRecord t now A r) rest).opponent_strength_values = _
    rw [foldRecords_opponent_strength_values t now rest,
      stepRecord_opponent_strength_values]
    simp [List.flatMap_cons]

theorem foldRecords_event_sizes (t : String) (now : Int) :
    ∀ (l : List PlayerEventResult) (A : PlayerAggregate),
    (foldRecords t now A l).event_sizes = A.event_sizes ++ l.filterMap sizeOpt
  | [], A => by simp [foldRecords]
  | r :: rest, A => by
    show (foldRecords t now (stepRecord t now A r) rest).event_sizes = _
    rw [foldRecords_event_sizes t now rest, stepRecord_event_sizes]
    cases h : sizeOpt r <;> simp [List.filterMap_cons, h]

theorem foldRecords_tournaments (t : String) (now : Int) :
    ∀ (l : List PlayerEventResult) (A : PlayerAggregate),
    (foldRecords t now A l).tournaments =
      A.tournaments ∪ (l.filterMap tnameOpt).toFinset
  | [], A => by simp [foldRecords]
  | r :: rest, A => by
    show (foldRecords t now (stepRecord t now A r) rest).tournaments = _
    rw [foldRecords_tournaments t now rest, stepRecord_tournaments]
    cases h : tnameOpt r with
    | none => simp [List.filterMap_cons, h]
    | some nm =>
      simp [List.filterMap_cons, h, Finset.insert_union, Finset.union_insert]

theorem foldRecords_latest_event_start (t : String) (now : Int) :
    ∀ (l : List PlayerEventResult) (A : PlayerAggregate),
    (foldRecords t now A l).latest_event_start =
      (l.filterMap startOpt).foldl max A.latest_event_start
  | [], A => by simp [foldRecords]
  | r :: rest, A => by
    show (foldRecords t now (stepRecord t now A r) rest).latest_event_start = _
    rw [foldRecords_latest_event_start t now rest, stepRecord_latest_event_start]
    cases h : startOpt r <;> simp [List.filterMap_cons, h]

/-! ## The per-region tally as a count function -/

theorem bumpState_tallyCount :
    ∀ (esc : List (String × Nat)) (k k' : String),
    tallyCount (bumpState esc k) k' = tallyCount esc k' + if k = k' then 1 else 0
  | [], k, k' => by
    by_cases h : k = k' <;> simp [bumpState, tallyCount, h]
  | (k0, c0) :: rest, k, k' => by
    by_cases h0 : k0 = k
    · subst h0
      rw [bumpState, if_pos rfl]
      by_cases h' : k0 = k' <;> simp [tallyCount, h']
    · rw [bumpState, if_neg h0]
      by_cases h' : k0 = k'
      · subst h'
        have hk : k ≠ k0 := fun hc => h0 hc.symm
        simp [tallyCount, hk]
      · simp [tallyCount, h', bumpState_tallyCount rest k k']

theorem bumpState_sum :
    ∀ (esc : List (String × Nat)) (k : String),
    ((bumpState esc k).map Prod.snd).sum = (esc.map Prod.snd).sum + 1
  | [], k => by simp [bumpState]
  | (k0, c0) :: rest, k => by
    by_cases h0 : k0 = k
    · rw [bumpState, if_pos h0]
      simp
      omega
    · rw [bumpState, if_neg h0]
      simp [bumpState_sum rest k]
      omega

theorem bumpState_keys :
    ∀ (esc : List (String × Nat)) (k : String),
    (bumpState esc k).map Prod.fst =
      if k ∈ esc.map Prod.fst then esc.map Prod.fst else esc.map Prod.fst ++ [k]
  | [], k => by simp [bumpState]
  | (k0, c0) :: rest, k => by
    by_cases h0 : k0 = k
    · subst h0
      rw [bumpState, if_pos rfl]
      simp
    · rw [bumpState, if_neg h0]
      have hne : ¬ k = k0 := fun hc => h0 hc.symm
      by_cases hm : k ∈ rest.map Prod.fst <;>
        simp [bumpState_keys rest k, hm, hne]

theorem bumpState_keys_nodup (esc : List (String × Nat)) (k : String)
    (h : (esc.map Prod.fst).Nodup) : ((bumpState esc k).map Prod.fst).Nodup := by
  rw [bumpState_keys]
  by_cases hm : k ∈ esc.map Prod.fst
  · rwa [if_pos hm]
  · rw [if_neg hm]
    simp [List.nodup_append, h, hm]

theorem foldRecords_tallyCount (t : String) (now : Int) :
    ∀ (l : List PlayerEventResult) (A : PlayerAggregate) (k : String),
    tallyCount (foldRecords t now A l).event_state_counts k =
      tallyCount A.event_state_counts k + (l.filterMap stateKeyOpt).count k
  | [], A, k => by simp [foldRecords]
  | r :: rest, A, k => by
    have step : (foldRecords t now A (r :: rest)) =
        foldRecords t now (stepRecord t now A r) rest := rfl
    rw [step, foldRecords_tallyCount t now rest, stepRecord_event_state_counts]
    cases h : stateKeyOpt r with
    | none => simp [List.filterMap_cons, h]
    | some k0 =>
      rw [List.filterMap_cons]
      simp only [h]
      rw [bumpState_tallyCount, List.count_cons]
      by_cases hk : k0 = k <;> simp [hk] <;> omega

theorem foldRecords_tally_sum (t : String) (now : Int) :
    ∀ (l : List PlayerEventResult) (A : PlayerAggregate),
    ((foldRecords t now A l).event_state_counts.map Prod.snd).sum =
      (A.event_state_counts.map Prod.snd).sum + (l.filterMap stateKeyOpt).length
  | [], A => by simp [foldRecords]
  | r :: rest, A => by
    have step : (foldRecords t now A (r :: rest)) =
        foldRecords t now (stepRecord t now A r) rest := rfl
    rw [step, foldRecords_tally_sum t now rest, stepRecord_event_state_counts]
    cases h : stateKeyOpt r with
    | none => simp [List.filterMap_cons, h]
    | some k0 =>
      rw [List.filterMap_cons]
      simp only [h]
      rw [bumpState_sum]
      simp
      omega

theorem foldRecords_tally_nodup (t : String) (now : Int) :
    ∀ (l : List PlayerEventResult) (A : PlayerAggregate),
    (A.event_state_counts.map Prod.fst).Nodup →
    ((foldRecords t now A l).event_state_counts.map Prod.fst).Nodup
  | [], A, h => h
  | r :: rest, A, h => by
    have step : (foldRecords t now A (r :: rest)) =
        foldRecords t now (stepRecord t now A r) rest := rfl
    rw [step]
    apply foldRecords_tally_nodup t now rest
    rw [stepRecord_event_state_counts]
    cases hk : stateKeyOpt r with
    | none => exact h
    | some k0 => exact bumpState_keys_nodup _ _ h

/-! ## Fold invariants -/

theorem AggInv_init (r : PlayerEventResult) : AggInv (initAgg r) := by
  refine ⟨?_, ?_, ?_, ?_, ?_, ?_, ?_⟩ <;> simp [initAgg]

theorem AggInv_stepSet {w : ℝ} (sn : Option Nat) (t : String) {a : PlayerAggregate}
    (s : SetRecord) (hw : 0.1 ≤ w) (h : AggInv a) : AggInv (stepSet w sn t a s) := by
  obtain ⟨h1, h2, h3, h4, h5, h6, h7⟩ := h
  cases hwon : s.won with
  | none =>
    simp only [stepSet, hwon]
    exact ⟨h1, h2, h3, h4, h5, h6, h7⟩
  | some b =>
    simp only [stepSet, hwon]
    refine ⟨?_, ?_, ?_, ?_, ?_, ?_, ?_⟩
    · cases b <;> simp <;> omega
    · by_cases hu : _uses_target_character s t <;> simp [hu] <;> omega
    · by_cases hu : _uses_target_character s t <;> cases b <;> simp [hu] <;> omega
    · by_cases hc : upsetCandidate s sn <;> cases b <;> simp [hc] <;> omega
    · cases b <;> simp <;> linarith
    · cases b <;> simp <;> linarith
    · push_cast
      linarith

theorem AggInv_foldSets {w : ℝ} (sn : Option Nat) (t : String) (hw : 0.1 ≤ w) :
    ∀ (sets : List SetRecord) {a : PlayerAggregate}, AggInv a →
    AggInv (sets.foldl (stepSet w sn t) a)
  | [], _, h => h
  | s :: rest, a, h =>
    AggInv_foldSets sn t hw rest (AggInv_stepSet sn t s hw h)

theorem AggInv_stepRecord (t : String) (now : Int) {a : PlayerAggregate}
    (r : PlayerEventResult) (h : AggInv a) : AggInv (stepRecord t now a r) := by
  obtain ⟨h1, h2, h3, h4, h5, h6, h7⟩ := h
  have hbase : AggInv
      { a with
        events_played := a.events_played + 1
        tournaments :=
          match r.tournament_name with
          | some nm => if nm = "" then a.tournaments else insert nm a.tournaments
          | none => a.tournaments
        seed_deltas :=
          a.seed_deltas ++
            (match r.seed_num, r.placement with
             | some sd, some pl => [(sd : ℝ) - (pl : ℝ)]
             | _, _ => [])
        latest_event_start :=
          match r.event_startAt with
          | some s => if s ≠ 0 ∧ a.latest_event_start < s then s else a.latest_event_start
          | none => a.latest_event_start
        event_sizes :=
          a.event_sizes ++
            (match r.event_numEntrants with
             | some n => if n = 0 then [] else [n]
             | none => [])
        event_state_counts :=
          match r.tournament_addrState with
          | some st =>
            if st = "" then a.event_state_counts
            else bumpState a.event_state_counts
              ((_normalize_state (some st)).getD "UNKNOWN")
          | none => a.event_state_counts } := ⟨h1, h2, h3, h4, h5, h6, h7⟩
  exact AggInv_foldSets _ _ (_event_weight_lb _ _ _) r.sets hbase

theorem AggInv_foldAggregates (target : String) (now : Int) :
    ∀ (l : List PlayerEventResult) (aggs : List (Nat × PlayerAggregate)),
    (∀ pa ∈ aggs, AggInv pa.2) →
    ∀ pa ∈ l.foldl (applyRecord target now) aggs, AggInv pa.2
  | [], aggs, h => h
  | r :: rest, aggs, h => by
    apply AggInv_foldAggregates target now rest
    intro pa hpa
    rw [applyRecord] at hpa
    cases hf : findAgg aggs r.player_id with
    | some a0 =>
      rw [hf] at hpa
      clear hf
      induction aggs with
      | nil => simp [updateAgg] at hpa
      | cons hd tl ih =>
        rw [updateAgg] at hpa
        by_cases hk : hd.1 = r.player_id
        · rw [if_pos hk] at hpa
          rcases List.mem_cons.mp hpa with hh | ht
          · subst hh
            exact AggInv_stepRecord target now r (h hd (List.mem_cons_self hd tl))
          · exact h _ (List.mem_cons_of_mem hd ht)
        · rw [if_neg hk] at hpa
          rcases List.mem_cons.mp hpa with hh | ht
          · subst hh
            exact h hd (List.mem_cons_self hd tl)
          · exact ih (fun pa hpa => h pa (List.mem_cons_of_mem hd hpa)) ht
    | none =>
      rw [hf] at hpa
      rcases List.mem_append.mp hpa with hl | hr
      · exact h pa hl
      · rcases List.mem_singleton.mp hr with rfl
        exact AggInv_stepRecord target now r (AggInv_init r)

/-! ## The aggregate table -/

theorem findAgg_updateAgg :
    ∀ (aggs : List (Nat × PlayerAggregate)) (k pid : Nat)
      (f : PlayerAggregate → PlayerAggregate),
    findAgg (updateAgg aggs k f) pid =
      if k = pid then (findAgg aggs pid).map f else findAgg aggs pid
  | [], k, pid, f => by by_cases h : k = pid <;> simp [updateAgg, findAgg, h]
  | (k0, a0) :: rest, k, pid, f => by
    by_cases h0 : k0 = k
    · subst h0
      rw [updateAgg, if_pos rfl]
      by_cases hp : k0 = pid
      · subst hp
        simp [findAgg]
      · simp [findAgg, hp]
    · rw [updateAgg, if_neg h0]
      by_cases hp : k0 = pid
      · subst hp
        have : ¬ k = k0 := fun hc => h0 hc.symm
        simp [findAgg, this]
      · simp [findAgg, hp, findAgg_updateAgg rest k pid f]

theorem findAgg_append :
    ∀ (xs ys : List (Nat × PlayerAggregate)) (pid : Nat),
    findAgg (xs ++ ys) pid =
      (match findAgg xs pid with
       | some a => some a
       | none => findAgg ys pid)
  | [], ys, pid => by simp [findAgg]
  | (k0, a0) :: rest, ys, pid => by
    by_cases hp : k0 = pid <;> simp [findAgg, hp, findAgg_append rest ys pid]

theorem findAgg_eq_none_iff :
    ∀ (aggs : List (Nat × PlayerAggregate)) (pid : Nat),
    findAgg aggs pid = none ↔ pid ∉ aggs.map Prod.fst
  | [], pid => by simp [findAgg]
  | (k0, a0) :: rest, pid => by
    rw [List.map_cons]
    by_cases hp : k0 = pid
    · subst hp
      simp [findAgg]
    · rw [findAgg, if_neg hp, findAgg_eq_none_iff rest pid]
      constructor
      · intro h hc
        rcases List.mem_cons.mp hc with h1 | h2
        · exact hp h1.symm
        · exact h h2
      · intro h hmem
        exact h (List.mem_cons_of_mem _ hmem)

theorem findAgg_mem :
    ∀ (aggs : List (Nat × PlayerAggregate)) (pid : Nat) (a : PlayerAggregate),
    findAgg aggs pid = some a → (pid, a) ∈ aggs
  | [], pid, a => by simp [findAgg]
  | (k0, a0) :: rest, pid, a => by
    by_cases hp : k0 = pid
    · subst hp
      rw [findAgg, if_pos rfl]
      intro h
      injection h with h
      subst h
      exact List.mem_cons_self _ _
    · rw [findAgg, if_neg hp]
      intro h
      exact List.mem_cons_of_mem _ (findAgg_mem rest pid a h)

theorem updateAgg_keys :
    ∀ (aggs : List (Nat × PlayerAggregate)) (k : Nat)
      (f : PlayerAggregate → PlayerAggregate),
    (updateAgg aggs k f).map Prod.fst = aggs.map Prod.fst
  | [], k, f => rfl
  | (k0, a0) :: rest, k, f => by
    by_cases h0 : k0 = k <;> simp [updateAgg, h0, updateAgg_keys rest k f]

theorem updateAgg_mem :
    ∀ (aggs : List (Nat × PlayerAggregate)) (k : Nat)
      (f : PlayerAggregate → PlayerAggregate) (pa : Nat × PlayerAggregate),
    pa ∈ updateAgg aggs k f → pa ∈ aggs ∨ ∃ a, (k, a) ∈ aggs ∧ pa = (k, f a)
  | [], k, f, pa => by simp [updateAgg]
  | (k0, a0) :: rest, k, f, pa => by
    by_cases h0 : k0 = k
    · subst h0
      rw [updateAgg, if_pos rfl]
      intro h
      rcases List.mem_cons.mp h with hh | ht
      · exact Or.inr ⟨a0, List.mem_cons_self _ _, hh⟩
      · exact Or.inl (List.mem_cons_of_mem _ ht)
    · rw [updateAgg, if_neg h0]
      intro h
      rcases List.mem_cons.mp h with hh | ht
      · exact Or.inl (hh ▸ List.mem_cons_self _ _)
      · rcases updateAgg_mem rest k f pa ht with h1 | ⟨a, ha, hpa⟩
        · exact Or.inl (List.mem_cons_of_mem _ h1)
        · exact Or.inr ⟨a, List.mem_cons_of_mem _ ha, hpa⟩

theorem KeysOk_foldAggregates (target : String) (now : Int) :
    ∀ (l : List PlayerEventResult) (aggs : List (Nat × PlayerAggregate)),
    KeysOk aggs → KeysOk (l.foldl (applyRecord target now) aggs)
  | [], aggs, h => h
  | r :: rest, aggs, h => by
    apply KeysOk_foldAggregates target now rest
    rw [applyRecord]
    cases hf : findAgg aggs r.player_id with
    | some a0 =>
      constructor
      · intro pa hpa
        rcases updateAgg_mem aggs r.player_id _ pa hpa with h1 | ⟨a, ha, rfl⟩
        · exact h.1 pa h1
        · exact ((stepRecord_ids target now a r).1).trans (h.1 (r.player_id, a) ha)
      · rw [updateAgg_keys]
        exact h.2
    | none =>
      constructor
      · intro pa hpa
        rcases List.mem_append.mp hpa with h1 | h2
        · exact h.1 pa h1
        · rcases List.mem_singleton.mp h2 with rfl
          exact ((stepRecord_ids target now (initAgg r) r).1).trans rfl
      · rw [List.map_append]
        have hnm : r.player_id ∉ aggs.map Prod.fst := (findAgg_eq_none_iff _ _).mp hf
        simp [List.nodup_append, h.2, hnm]

theorem KeysOk_fold (l : List PlayerEventResult) (target : String) (now : Int) :
    KeysOk (foldAggregates l target now) :=
  KeysOk_foldAggregates target now l [] ⟨by simp, by simp⟩

theorem mem_unique_of_keysOk :
    ∀ (aggs : List (Nat × PlayerAggregate)), KeysOk aggs →
    ∀ (k : Nat) (a a' : PlayerAggregate), (k, a) ∈ aggs → (k, a') ∈ aggs → a = a'
  | [], _, k, a, a' => by simp
  | (k0, a0) :: rest, h, k, a, a' => by
    intro h1 h2
    have hkeys := h.2
    rw [List.map_cons, List.nodup_cons] at hkeys
    rcases List.mem_cons.mp h1 with hh1 | ht1 <;> rcases List.mem_cons.mp h2 with hh2 | ht2
    · injection hh1 with e1 e2
      injection hh2 with e3 e4
      rw [e2, e4]
    · injection hh1 with e1 e2
      have hm : k ∈ rest.map Prod.fst := List.mem_map_of_mem Prod.fst ht2
      rw [e1] at hm
      exact absurd hm hkeys.1
    · injection hh2 with e1 e2
      have hm : k ∈ rest.map Prod.fst := List.mem_map_of_mem Prod.fst ht1
      rw [e1] at hm
      exact absurd hm hkeys.1
    · exact mem_unique_of_keysOk rest ⟨fun pa hpa => h.1 pa (List.mem_cons_of_mem _ hpa),
        hkeys.2⟩ k a a' ht1 ht2

theorem mem_compute_iff (l : List PlayerEventResult) (target : String) (b : Bool)
    (now : Int) (row : Row) :
    row ∈ compute_player_metrics l target b now ↔
      ∃ pa ∈ foldAggregates l target now,
        pa.2.sets_played ≠ 0 ∧ row = finalizeRow pa.2 b := by
  rw [compute_player_metrics, List.mem_filterMap]
  constructor
  · rintro ⟨pa, hmem, hf⟩
    by_cases h0 : pa.2.sets_played = 0
    · rw [if_pos h0] at hf
      exact absurd hf (by simp)
    · rw [if_neg h0] at hf
      injection hf with hf
      exact ⟨pa, hmem, h0, hf.symm⟩
  · rintro ⟨pa, hmem, h0, rfl⟩
    exact ⟨pa, hmem, by rw [if_neg h0]⟩

/-! ## Skipping players without counted sets -/

/-- C2: a player whose aggregate accumulated zero counted sets produces no
output row, and when that holds for every player the output is empty; the
function is total, so this empty table is the only caller-visible
degenerate outcome. -/
theorem claim_C2 (l : List PlayerEventResult) (target : String) (b : Bool) (now : Int) :
    (∀ (pid : Nat) (a : PlayerAggregate), (pid, a) ∈ foldAggregates l target now →
      a.sets_played = 0 →
      ∀ row ∈ compute_player_metrics l target b now, row.player_id ≠ pid) ∧
    ((∀ pa ∈ foldAggregates l target now, pa.2.sets_played = 0) →
      compute_player_metrics l target b now = []) := by
  have hkeys := KeysOk_fold l target now
  constructor
  · intro pid a hmem h0 row hrow hpid
    obtain ⟨pa, hpa, hne, rfl⟩ := (mem_compute_iff l target b now row).mp hrow
    rw [finalizeRow_player_id] at hpid
    have hpaid : pa.2.player_id = pa.1 := hkeys.1 pa hpa
    have hpa1 : pa.1 = pid := by rw [← hpaid, hpid]
    have hpamem : (pid, pa.2) ∈ foldAggregates l target now := by
      have : pa = (pa.1, pa.2) := rfl
      rw [this, hpa1] at hpa
      exact hpa
    have := mem_unique_of_keysOk _ hkeys pid a pa.2 hmem hpamem
    rw [← this] at hne
    exact hne h0
  · intro hall
    rw [compute_player_metrics]
    rw [List.filterMap_eq_nil_iff]
    intro pa hpa
    rw [if_pos (hall pa hpa)]

theorem claim_C2_witness :
    compute_player_metrics [exRecNoResult] "Marth" false 0 = [] := by
  apply (claim_C2 [exRecNoResult] "Marth" false 0).2
  intro pa hpa
  have hfold : foldAggregates [exRecNoResult] "Marth" 0 =
      [(5, stepRecord "Marth" 0 (initAgg exRecNoResult) exRecNoResult)] := rfl
  rw [hfold] at hpa
  rcases List.mem_singleton.mp hpa with rfl
  rw [stepRecord_sets_played]
  rfl

/-! ## Range invariants of the emitted rates -/

/-- C3: in every emitted row, `character_usage_rate` lies in `[0, 1]`, and
each of `win_rate`, `weighted_win_rate`, `upset_rate` and
`character_win_rate` is either absent or in `[0, 1]`. -/
theorem claim_C3 (l : List PlayerEventResult) (target : String) (b : Bool) (now : Int)
    (row : Row) (hrow : row ∈ compute_player_metrics l target b now) :
    (0 ≤ row.character_usage_rate ∧ row.character_usage_rate ≤ 1) ∧
    (∀ x : ℝ, row.win_rate = some x → 0 ≤ x ∧ x ≤ 1) ∧
    (∀ x : ℝ, row.weighted_win_rate = some x → 0 ≤ x ∧ x ≤ 1) ∧
    (∀ x : ℝ, row.upset_rate = some x → 0 ≤ x ∧ x ≤ 1) ∧
    (∀ x : ℝ, row.character_win_rate = some x → 0 ≤ x ∧ x ≤ 1) := by
  obtain ⟨pa, hpa, hne, rfl⟩ := (mem_compute_iff l target b now row).mp hrow
  have hinv : AggInv pa.2 :=
    AggInv_foldAggregates target now l [] (by simp) pa hpa
  have hspos : (0 : ℝ) < (pa.2.sets_played : ℝ) :=
    Nat.cast_pos.mpr (Nat.pos_of_ne_zero hne)
  have hwinrate : ∀ x : ℝ, (finalizeRow pa.2 b).win_rate = some x → 0 ≤ x ∧ x ≤ 1 := by
    intro x hx
    rw [finalizeRow_win_rate, if_pos hne] at hx
    injection hx with hx
    subst hx
    refine ⟨div_nonneg (Nat.cast_nonneg _) (Nat.cast_nonneg _), ?_⟩
    rw [div_le_one hspos]
    exact_mod_cast hinv.wins_le
  refine ⟨?_, hwinrate, ?_, ?_, ?_⟩
  · rw [finalizeRow_character_usage_rate]
    by_cases hf : b = true ∧ pa.2.character_sets = 0 ∧ 0 < pa.2.sets_played
    · rw [if_pos hf]
      norm_num
    · rw [if_neg hf, if_pos hne]
      refine ⟨div_nonneg (Nat.cast_nonneg _) (Nat.cast_nonneg _), ?_⟩
      rw [div_le_one hspos]
      exact_mod_cast hinv.char_le_sets
  · intro x hx
    rw [finalizeRow_weighted_win_rate] at hx
    by_cases hws : pa.2.weight_sum ≠ 0
    · rw [if_pos hws] at hx
      injection hx with hx
      subst hx
      have hws0 : (0 : ℝ) ≤ pa.2.weight_sum := le_trans hinv.ww_nonneg hinv.ww_le_ws
      have hwspos : (0 : ℝ) < pa.2.weight_sum := lt_of_le_of_ne hws0 (Ne.symm hws)
      exact ⟨div_nonneg hinv.ww_nonneg hws0, by rw [div_le_one hwspos]; exact hinv.ww_le_ws⟩
    · rw [if_neg hws] at hx
      exact absurd hx (by simp)
  · intro x hx
    rw [finalizeRow_upset_rate] at hx
    by_cases hsv : pa.2.sets_vs_higher_seed ≠ 0
    · rw [if_pos hsv] at hx
      injection hx with hx
      subst hx
      have hvp : (0 : ℝ) < (pa.2.sets_vs_higher_seed : ℝ) :=
        Nat.cast_pos.mpr (Nat.pos_of_ne_zero hsv)
      refine ⟨div_nonneg (Nat.cast_nonneg _) (Nat.cast_nonneg _), ?_⟩
      rw [div_le_one hvp]
      exact_mod_cast hinv.upsets_le
    · rw [if_neg hsv] at hx
      exact absurd hx (by simp)
  · intro x hx
    rw [finalizeRow_character_win_rate] at hx
    by_cases hf : b = true ∧ pa.2.character_sets = 0 ∧ 0 < pa.2.sets_played
    · rw [if_pos hf] at hx
      exact hwinrate x (by rw [finalizeRow_win_rate]; exact hx)
    · rw [if_neg hf] at hx
      by_cases hcs : pa.2.character_sets ≠ 0
      · rw [if_pos hcs] at hx
        injection hx with hx
        subst hx
        have hcp : (0 : ℝ) < (pa.2.character_sets : ℝ) :=
          Nat.cast_pos.mpr (Nat.pos_of_ne_zero hcs)
        refine ⟨div_nonneg (Nat.cast_nonneg _) (Nat.cast_nonneg _), ?_⟩
        rw [div_le_one hcp]
        exact_mod_cast hinv.char_wins_le
      · rw [if_neg hcs] at hx
        exact absurd hx (by simp)

theorem claim_C3_witness :
    finalizeRow (stepRecord "Marth" 0 (initAgg exRecWin) exRecWin) false ∈
      compute_player_metrics [exRecWin] "Marth" false 0 ∧
    (0 ≤ (finalizeRow (stepRecord "Marth" 0 (initAgg exRecWin) exRecWin)
        false).character_usage_rate ∧
      (finalizeRow (stepRecord "Marth" 0 (initAgg exRecWin) exRecWin)
        false).character_usage_rate ≤ 1) := by
  have hfold : foldAggregates [exRecWin] "Marth" 0 =
      [(9, stepRecord "Marth" 0 (initAgg exRecWin) exRecWin)] := rfl
  have hsp : (stepRecord "Marth" 0 (initAgg exRecWin) exRecWin).sets_played = 1 := by
    rw [stepRecord_sets_played]
    rfl
  have hmem : finalizeRow (stepRecord "Marth" 0 (initAgg exRecWin) exRecWin) false ∈
      compute_player_metrics [exRecWin] "Marth" false 0 := by
    apply (mem_compute_iff _ _ _ _ _).mpr
    refine ⟨(9, stepRecord "Marth" 0 (initAgg exRecWin) exRecWin), ?_, ?_, rfl⟩
    · rw [hfold]
      exact List.mem_singleton.mpr rfl
    · rw [hsp]
      norm_num
  exact ⟨hmem, (claim_C3 [exRecWin] "Marth" false 0 _ hmem).1⟩

/-! ## The weighted win rate is always present -/

/-- C10: every aggregate's weight sum is at least `0.1` per counted set, so
every emitted row (which requires at least one counted set) has a present
`weighted_win_rate`. -/
theorem claim_C10 (l : List PlayerEventResult) (target : String) (b : Bool) (now : Int) :
    (∀ pa ∈ foldAggregates l target now,
      0.1 * (pa.2.sets_played : ℝ) ≤ pa.2.weight_sum) ∧
    (∀ row ∈ compute_player_metrics l target b now, row.weighted_win_rate.isSome) := by
  constructor
  · intro pa hpa
    exact (AggInv_foldAggregates target now l [] (by simp) pa hpa).ws_lower
  · intro row hrow
    obtain ⟨pa, hpa, hne, rfl⟩ := (mem_compute_iff l target b now row).mp hrow
    have hinv : AggInv pa.2 := AggInv_foldAggregates target now l [] (by simp) pa hpa
    have h1 : (1 : ℝ) ≤ (pa.2.sets_played : ℝ) :=
      Nat.one_le_cast.mpr (Nat.pos_of_ne_zero hne)
    have hpos : (0 : ℝ) < pa.2.weight_sum :=
      lt_of_lt_of_le (by linarith : (0 : ℝ) < 0.1 * (pa.2.sets_played : ℝ)) hinv.ws_lower
    rw [finalizeRow_weighted_win_rate, if_pos (ne_of_gt hpos)]
    rfl

theorem claim_C10_witness :
    (finalizeRow (stepRecord "Marth" 0 (initAgg exRecWin) exRecWin)
      false).weighted_win_rate.isSome := by
  have hfold : foldAggregates [exRecWin] "Marth" 0 =
      [(9, stepRecord "Marth" 0 (initAgg exRecWin) exRecWin)] := rfl
  have hsp : (stepRecord "Marth" 0 (initAgg exRecWin) exRecWin).sets_played = 1 := by
    rw [stepRecord_sets_played]
    rfl
  have hmem : finalizeRow (stepRecord "Marth" 0 (initAgg exRecWin) exRecWin) false ∈
      compute_player_metrics [exRecWin] "Marth" false 0 := by
    apply (mem_compute_iff _ _ _ _ _).mpr
    refine ⟨(9, stepRecord "Marth" 0 (initAgg exRecWin) exRecWin), ?_, ?_, rfl⟩
    · rw [hfold]
      exact List.mem_singleton.mpr rfl
    · rw [hsp]
      norm_num
  exact (claim_C10 [exRecWin] "Marth" false 0).2 _ hmem

/-! ## Region-code tallying -/

/-- C9 (amended): a present and non-empty tournament region code is
normalized (trim, uppercase; a whitespace-only code normalizes to the
sentinel `"UNKNOWN"`) and tallied; a present-but-empty region code is
falsy in the source's truthiness gate and is skipped, like an absent
one. -/
theorem claim_C9 (agg : PlayerAggregate) (r : PlayerEventResult) (target : String)
    (now : Int) :
    (∀ st : String, r.tournament_addrState = some st → st ≠ "" →
      (stepRecord target now agg r).event_state_counts =
        bumpState agg.event_state_counts
          (if st.trim.toUpper = "" then "UNKNOWN" else st.trim.toUpper)) ∧
    ((r.tournament_addrState = none ∨ r.tournament_addrState = some "") →
      (stepRecord target now agg r).event_state_counts = agg.event_state_counts) := by
  constructor
  · intro st hst hne
    rw [stepRecord_event_state_counts]
    have hkey : stateKeyOpt r =
        some (if st.trim.toUpper = "" then "UNKNOWN" else st.trim.toUpper) := by
      rw [stateKeyOpt, hst]
      show (if st = "" then none
        else some ((_normalize_state (some st)).getD "UNKNOWN")) = _
      rw [if_neg hne]
      by_cases ht : st.trim.toUpper = "" <;> simp [_normalize_state, hne, ht]
    rw [hkey]
  · intro h
    rw [stepRecord_event_state_counts]
    rcases h with h | h <;> rw [stateKeyOpt, h] <;> simp

theorem claim_C9_witness :
    (stepRecord "Marth" 0 (initAgg exRecEmptyState)
        { exRecEmptyState with tournament_addrState := some " ga " }).event_state_counts =
      bumpState (initAgg exRecEmptyState).event_state_counts
        (if " ga ".trim.toUpper = "" then "UNKNOWN" else " ga ".trim.toUpper) ∧
    (stepRecord "Marth" 0 (initAgg exRecEmptyState)
        exRecEmptyState).event_state_counts =
      (initAgg exRecEmptyState).event_state_counts :=
  ⟨(claim_C9 (initAgg exRecEmptyState)
      { exRecEmptyState with tournament_addrState := some " ga " } "Marth" 0).1
      " ga " rfl (by decide),
   (claim_C9 (initAgg exRecEmptyState) exRecEmptyState "Marth" 0).2 (Or.inr rfl)⟩

theorem claim_C9_counterexample :
    exRecEmptyState.tournament_addrState = some "" ∧
    (stepRecord "Marth" 0 (initAgg exRecEmptyState) exRecEmptyState).event_state_counts
      = [] ∧
    ((stepRecord "Marth" 0 (initAgg exRecEmptyState) exRecEmptyState).event_state_counts
      ≠ bumpState (initAgg exRecEmptyState).event_state_counts "UNKNOWN") := by
  have h2 : (stepRecord "Marth" 0 (initAgg exRecEmptyState)
      exRecEmptyState).event_state_counts = [] := by
    rw [stepRecord_event_state_counts]
    rfl
  refine ⟨rfl, h2, ?_⟩
  rw [h2]
  intro h
  exact absurd h (by simp [initAgg, bumpState])

/-! ## Region inference -/

theorem topPair_cons_none {rest : List (String × Nat)} (p : String × Nat)
    (h : topPair rest = none) : topPair (p :: rest) = some p := by
  rw [topPair, h]

theorem topPair_cons_some {rest : List (String × Nat)} (p q : String × Nat)
    (h : topPair rest = some q) :
    topPair (p :: rest) = if q.2 > p.2 then some q else some p := by
  rw [topPair, h]

theorem topPair_eq_none : ∀ esc : List (String × Nat), topPair esc = none ↔ esc = []
  | [] => by simp [topPair]
  | p :: rest => by
    cases h : topPair rest with
    | none => simp [topPair_cons_none p h]
    | some q =>
      rw [topPair_cons_some p q h]
      by_cases hq : q.2 > p.2 <;> simp [hq]

theorem topPair_mem : ∀ (esc : List (String × Nat)) (tp : String × Nat),
    topPair esc = some tp → tp ∈ esc
  | [], tp => by simp [topPair]
  | p :: rest, tp => by
    cases h : topPair rest with
    | none =>
      rw [topPair_cons_none p h]
      intro he
      injection he with he
      exact he ▸ List.mem_cons_self _ _
    | some q =>
      rw [topPair_cons_some p q h]
      by_cases hq : q.2 > p.2
      · rw [if_pos hq]
        intro he
        injection he with he
        exact List.mem_cons_of_mem _ (he ▸ topPair_mem rest q h)
      · rw [if_neg hq]
        intro he
        injection he with he
        exact he ▸ List.mem_cons_self _ _

theorem topPair_ge : ∀ (esc : List (String × Nat)) (tp : String × Nat),
    topPair esc = some tp → ∀ p ∈ esc, p.2 ≤ tp.2
  | [], tp => by simp [topPair]
  | p :: rest, tp => by
    cases h : topPair rest with
    | none =>
      rw [topPair_cons_none p h]
      intro he q hq
      injection he with he
      rcases List.mem_cons.mp hq with rfl | hmem
      · rw [he]
      · rw [(topPair_eq_none rest).mp h] at hmem
        simp at hmem
    | some q0 =>
      rw [topPair_cons_some p q0 h]
      by_cases hq : q0.2 > p.2
      · rw [if_pos hq]
        intro he q hq'
        injection he with he
        rcases List.mem_cons.mp hq' with rfl | hmem
        · exact he ▸ le_of_lt hq
        · exact topPair_ge rest tp (he ▸ h) q hmem
      · rw [if_neg hq]
        intro he q hq'
        injection he with he
        rcases List.mem_cons.mp hq' with rfl | hmem
        · exact he ▸ le_rfl
        · exact he ▸ le_trans (topPair_ge rest q0 h q hmem) (not_lt.mp hq)

theorem inferredPairOf_eq (esc : List (String × Nat))
    (htot : (esc.map Prod.snd).sum ≠ 0) (tp : String × Nat)
    (htp : topPair esc = some tp) :
    inferredPairOf esc =
      if tp.1 ≠ "UNKNOWN" then
        (if ((tp.2 : ℝ) / ((esc.map Prod.snd).sum : ℝ)) > 0.5 then
          some (tp.1, (tp.2 : ℝ) / ((esc.map Prod.snd).sum : ℝ))
        else none)
      else none := by
  rw [inferredPairOf, if_pos htot, htp]

theorem sum_ne_zero_ne_nil {esc : List (String × Nat)}
    (htot : (esc.map Prod.snd).sum ≠ 0) : esc ≠ [] := by
  intro h
  rw [h] at htot
  simp at htot

/-- C8: with at least one tallied event, a region is inferred exactly when
the first region attaining the maximal count is not `"UNKNOWN"` and its
share of the tallied events exceeds `0.5`; the inferred confidence is that
share, and with no explicit region the home-region fields follow the
inferred ones. -/
theorem claim_C8 (agg : PlayerAggregate) (b : Bool)
    (htot : (agg.event_state_counts.map Prod.snd).sum ≠ 0) :
    ((finalizeRow agg b).inferred_state.isSome ↔
      (∃ s c, topPair agg.event_state_counts = some (s, c) ∧ s ≠ "UNKNOWN" ∧
        ((c : ℝ) / ((agg.event_state_counts.map Prod.snd).sum : ℝ)) > 0.5)) ∧
    (∀ (s : String) (c : Nat), topPair agg.event_state_counts = some (s, c) →
      s ≠ "UNKNOWN" →
      ((c : ℝ) / ((agg.event_state_counts.map Prod.snd).sum : ℝ)) > 0.5 →
      (finalizeRow agg b).inferred_state = some s ∧
      (finalizeRow agg b).inferred_state_confidence =
        some ((c : ℝ) / ((agg.event_state_counts.map Prod.snd).sum : ℝ))) ∧
    (agg.state = none →
      (finalizeRow agg b).home_state = (finalizeRow agg b).inferred_state ∧
      (finalizeRow agg b).home_state_confidence =
        (finalizeRow agg b).inferred_state_confidence) := by
  obtain ⟨tp, htp⟩ : ∃ tp, topPair agg.event_state_counts = some tp := by
    cases h : topPair agg.event_state_counts with
    | none => exact absurd ((topPair_eq_none _).mp h) (sum_ne_zero_ne_nil htot)
    | some tp => exact ⟨tp, rfl⟩
  have hred := inferredPairOf_eq agg.event_state_counts htot tp htp
  refine ⟨?_, ?_, ?_⟩
  · rw [finalizeRow_inferred_state, hred]
    by_cases hs : tp.1 ≠ "UNKNOWN"
    · rw [if_pos hs]
      by_cases hgt : ((tp.2 : ℝ) /
          ((agg.event_state_counts.map Prod.snd).sum : ℝ)) > 0.5
      · rw [if_pos hgt]
        exact iff_of_true (by simp) ⟨tp.1, tp.2, by rw [htp], hs, hgt⟩
      · rw [if_neg hgt]
        refine iff_of_false (by simp) ?_
        rintro ⟨s, c, hsc, hs', hgt'⟩
        rw [htp] at hsc
        injection hsc with hsc
        have hsnd : c = tp.2 := by rw [hsc]
        rw [hsnd] at hgt'
        exact hgt hgt'
    · rw [if_neg hs]
      refine iff_of_false (by simp) ?_
      rintro ⟨s, c, hsc, hs', hgt'⟩
      rw [htp] at hsc
      injection hsc with hsc
      have hfst : s = tp.1 := by rw [hsc]
      push_neg at hs
      exact hs' (by rw [hfst, hs])
  · intro s c htp' hs hgt
    rw [htp] at htp'
    injection htp' with htp'
    subst htp'
    rw [finalizeRow_inferred_state, finalizeRow_inferred_state_confidence, hred]
    rw [if_pos (by exact hs : ((s, c) : String × Nat).1 ≠ "UNKNOWN"),
      if_pos (by exact hgt)]
    exact ⟨rfl, rfl⟩
  · intro hst
    have hns : _normalize_state agg.state = none := by rw [hst]; rfl
    rw [finalizeRow_home_state, finalizeRow_home_state_confidence,
      finalizeRow_inferred_state, finalizeRow_inferred_state_confidence, hns]
    cases hip : inferredPairOf agg.event_state_counts <;> simp

theorem claim_C8_witness :
    (finalizeRow exAggGA false).inferred_state = some "GA" ∧
    (finalizeRow exAggGA false).home_state = some "GA" ∧
    (finalizeRow exAggGA false).home_state_confidence = some (0.6 : ℝ) ∧
    (finalizeRow exAggTie false).inferred_state = none ∧
    (finalizeRow exAggTie false).home_state = none := by
  have hsumGA : (exAggGA.event_state_counts.map Prod.snd).sum = 10 := rfl
  have htotGA : (exAggGA.event_state_counts.map Prod.snd).sum ≠ 0 := by
    rw [hsumGA]
    norm_num
  have htpGA : topPair exAggGA.event_state_counts = some ("GA", 6) := rfl
  have hgtGA : (((6 : Nat) : ℝ) / ((exAggGA.event_state_counts.map Prod.snd).sum : ℝ))
      > 0.5 := by
    rw [hsumGA]
    norm_num
  have hGA := claim_C8 exAggGA false htotGA
  have h2 := hGA.2.1 "GA" 6 htpGA (by decide) hgtGA
  have h3 := hGA.2.2 rfl
  have hconf : (finalizeRow exAggGA false).home_state_confidence = some (0.6 : ℝ) := by
    rw [h3.2, h2.2, hsumGA]
    norm_num
  have hsumT : (exAggTie.event_state_counts.map Prod.snd).sum = 10 := rfl
  have htotT : (exAggTie.event_state_counts.map Prod.snd).sum ≠ 0 := by
    rw [hsumT]
    norm_num
  have htpT : topPair exAggTie.event_state_counts = some ("GA", 5) := rfl
  have hT := claim_C8 exAggTie false htotT
  have hTnone : (finalizeRow exAggTie false).inferred_state = none := by
    rw [← Option.not_isSome_iff_eq_none]
    intro hsome
    obtain ⟨s, c, hsc, hs', hgt'⟩ := hT.1.mp hsome
    rw [htpT] at hsc
    injection hsc with hsc
    injection hsc with hfst hsnd
    rw [← hsnd, hsumT] at hgt'
    norm_num at hgt'
  have hT3 := hT.2.2 rfl
  exact ⟨h2.1, h3.1.trans h2.1, hconf, hTnone, hT3.1.trans hTnone⟩

/-! ## Permutation helpers -/

theorem foldl_max_perm {α : Type} [LinearOrder α] {l₁ l₂ : List α} (h : l₁.Perm l₂) :
    ∀ b : α, l₁.foldl max b = l₂.foldl max b := by
  induction h with
  | nil => intro b; rfl
  | cons x _ ih => intro b; exact ih (max b x)
  | swap x y l =>
    intro b
    show l.foldl max (max (max b y) x) = l.foldl max (max (max b x) y)
    have hmx : max (max b y) x = max (max b x) y := by
      rw [max_assoc, max_comm y x, ← max_assoc]
    rw [hmx]
  | trans _ _ ih1 ih2 => intro b; exact (ih1 b).trans (ih2 b)

theorem perm_toFinset {α : Type} [DecidableEq α] {l₁ l₂ : List α} (h : l₁.Perm l₂) :
    l₁.toFinset = l₂.toFinset := by
  ext a
  simp [List.mem_toFinset, h.mem_iff]

/-! ## Congruence of region inference under equal tallies -/

theorem tallyCount_of_mem :
    ∀ (esc : List (String × Nat)) (p : String × Nat), p ∈ esc →
    (esc.map Prod.fst).Nodup → tallyCount esc p.1 = p.2
  | [], p => by simp
  | (k0, c0) :: rest, p => by
    intro hmem hnd
    rw [List.map_cons, List.nodup_cons] at hnd
    rcases List.mem_cons.mp hmem with rfl | hmem'
    · rw [tallyCount, if_pos rfl]
    · rw [tallyCount]
      by_cases hk : k0 = p.1
      · have hm : p.1 ∈ rest.map Prod.fst := List.mem_map_of_mem Prod.fst hmem'
        rw [← hk] at hm
        exact absurd hm hnd.1
      · rw [if_neg hk]
        exact tallyCount_of_mem rest p hmem' hnd.2

theorem mem_of_tallyCount :
    ∀ (esc : List (String × Nat)) (k : String), tallyCount esc k ≠ 0 →
    (k, tallyCount esc k) ∈ esc
  | [], k => by simp [tallyCount]
  | (k0, c0) :: rest, k => by
    intro hne
    rw [tallyCount] at hne ⊢
    by_cases hk : k0 = k
    · rw [if_pos hk]
      subst hk
      exact List.mem_cons_self _ _
    · rw [if_neg hk] at hne ⊢
      exact List.mem_cons_of_mem _ (mem_of_tallyCount rest k hne)

theorem mem_le_sum :
    ∀ (esc : List (String × Nat)) (p : String × Nat), p ∈ esc →
    p.2 ≤ (esc.map Prod.snd).sum
  | [], p => by simp
  | q :: rest, p => by
    intro hmem
    rw [List.map_cons, List.sum_cons]
    rcases List.mem_cons.mp hmem with rfl | hmem'
    · exact Nat.le_add_right _ _
    · exact le_trans (mem_le_sum rest p hmem') (Nat.le_add_left _ _)

theorem pair_sum_le :
    ∀ (esc : List (String × Nat)) (p q : String × Nat), p ∈ esc → q ∈ esc →
    p.1 ≠ q.1 → p.2 + q.2 ≤ (esc.map Prod.snd).sum
  | [], p, q => by simp
  | h0 :: rest, p, q => by
    intro hp hq hne
    rw [List.map_cons, List.sum_cons]
    rcases List.mem_cons.mp hp with rfl | hp' <;> rcases List.mem_cons.mp hq with rfl | hq'
    · exact absurd rfl hne
    · have := mem_le_sum rest q hq'
      omega
    · have := mem_le_sum rest p hp'
      omega
    · have := pair_sum_le rest p q hp' hq' hne
      omega

theorem inferredPairOf_mono (esc₁ esc₂ : List (String × Nat))
    (h1 : (esc₁.map Prod.fst).Nodup) (h2 : (esc₂.map Prod.fst).Nodup)
    (hcnt : ∀ k, tallyCount esc₁ k = tallyCount esc₂ k)
    (htot : (esc₁.map Prod.snd).sum = (esc₂.map Prod.snd).sum)
    (pr : String × ℝ) (hsome : inferredPairOf esc₁ = some pr) :
    inferredPairOf esc₂ = some pr := by
  by_cases htot1 : (esc₁.map Prod.snd).sum ≠ 0
  swap
  · rw [inferredPairOf, if_neg htot1] at hsome
    exact absurd hsome (by simp)
  obtain ⟨tp, htp⟩ : ∃ tp, topPair esc₁ = some tp := by
    cases h : topPair esc₁ with
    | none => exact absurd ((topPair_eq_none _).mp h) (sum_ne_zero_ne_nil htot1)
    | some tp => exact ⟨tp, rfl⟩
  rw [inferredPairOf_eq esc₁ htot1 tp htp] at hsome
  by_cases hs : tp.1 ≠ "UNKNOWN"
  swap
  · rw [if_neg hs] at hsome
    exact absurd hsome (by simp)
  rw [if_pos hs] at hsome
  by_cases hgt : ((tp.2 : ℝ) / ((esc₁.map Prod.snd).sum : ℝ)) > 0.5
  swap
  · rw [if_neg hgt] at hsome
    exact absurd hsome (by simp)
  rw [if_pos hgt] at hsome
  injection hsome with hsome
  have hTpos : (0 : ℝ) < ((esc₁.map Prod.snd).sum : ℝ) :=
    Nat.cast_pos.mpr (Nat.pos_of_ne_zero htot1)
  have h2T : (esc₁.map Prod.snd).sum < 2 * tp.2 := by
    have hh := (lt_div_iff hTpos).mp (by linarith [hgt] : (0.5 : ℝ) <
      (tp.2 : ℝ) / ((esc₁.map Prod.snd).sum : ℝ))
    have : ((esc₁.map Prod.snd).sum : ℝ) < 2 * (tp.2 : ℝ) := by linarith
    exact_mod_cast this
  have htpmem := topPair_mem esc₁ tp htp
  have hcnt1 : tallyCount esc₁ tp.1 = tp.2 := tallyCount_of_mem esc₁ tp htpmem h1
  have htp2ne : tp.2 ≠ 0 := by
    intro h0
    rw [h0] at h2T
    omega
  have hcnt2 : tallyCount esc₂ tp.1 = tp.2 := by rw [← hcnt, hcnt1]
  have hmem2 : (tp.1, tp.2) ∈ esc₂ := by
    have hm := mem_of_tallyCount esc₂ tp.1 (by rw [hcnt2]; exact htp2ne)
    rwa [hcnt2] at hm
  have htot2 : (esc₂.map Prod.snd).sum ≠ 0 := by rw [← htot]; exact htot1
  obtain ⟨tq, htq⟩ : ∃ tq, topPair esc₂ = some tq := by
    cases h : topPair esc₂ with
    | none => exact absurd ((topPair_eq_none _).mp h) (sum_ne_zero_ne_nil htot2)
    | some tq => exact ⟨tq, rfl⟩
  have htqmem := topPair_mem esc₂ tq htq
  have htqge : tp.2 ≤ tq.2 := topPair_ge esc₂ tq htq (tp.1, tp.2) hmem2
  have hkey : tq.1 = tp.1 := by
    by_contra hne
    have hle := pair_sum_le esc₂ tq (tp.1, tp.2) htqmem hmem2 hne
    rw [← htot] at hle
    simp only [] at hle
    omega
  have hval : tq.2 = tp.2 := by
    have hq := tallyCount_of_mem esc₂ tq htqmem h2
    rw [hkey, hcnt2] at hq
    exact hq.symm
  have htqeq : tq = tp := Prod.ext hkey hval
  rw [inferredPairOf_eq esc₂ htot2 tq htq, htqeq, ← htot, if_pos hs, if_pos hgt,
    hsome]

theorem inferredPairOf_congr (esc₁ esc₂ : List (String × Nat))
    (h1 : (esc₁.map Prod.fst).Nodup) (h2 : (esc₂.map Prod.fst).Nodup)
    (hcnt : ∀ k, tallyCount esc₁ k = tallyCount esc₂ k)
    (htot : (esc₁.map Prod.snd).sum = (esc₂.map Prod.snd).sum) :
    inferredPairOf esc₁ = inferredPairOf esc₂ := by
  cases h1' : inferredPairOf esc₁ with
  | some pr => rw [inferredPairOf_mono esc₁ esc₂ h1 h2 hcnt htot pr h1']
  | none =>
    cases h2' : inferredPairOf esc₂ with
    | none => rfl
    | some pr =>
      have hm := inferredPairOf_mono esc₂ esc₁ h2 h1 (fun k => (hcnt k).symm)
        htot.symm pr h2'
      rw [hm] at h1'
      exact absurd h1' (by simp)

/-! ## Permutation invariance of a player's final row -/

theorem foldRecords_perm_finalize (t : String) (now : Int) (b : Bool)
    (A : PlayerAggregate) (hA : (A.event_state_counts.map Prod.fst).Nodup)
    {l₁ l₂ : List PlayerEventResult} (hp : l₁.Perm l₂) :
    (foldRecords t now A l₁).sets_played = (foldRecords t now A l₂).sets_played ∧
    finalizeRow (foldRecords t now A l₁) b = finalizeRow (foldRecords t now A l₂) b := by
  have hsum : ∀ (f : PlayerEventResult → Nat), (l₁.map f).sum = (l₂.map f).sum :=
    fun f => (hp.map f).sum_eq
  have hsumR : ∀ (f : PlayerEventResult → ℝ), (l₁.map f).sum = (l₂.map f).sum :=
    fun f => (hp.map f).sum_eq
  have hids1 := foldRecords_ids t now l₁ A
  have hids2 := foldRecords_ids t now l₂ A
  have hpid : (foldRecords t now A l₁).player_id = (foldRecords t now A l₂).player_id :=
    hids1.1.trans hids2.1.symm
  have htag : (foldRecords t now A l₁).gamer_tag = (foldRecords t now A l₂).gamer_tag :=
    hids1.2.1.trans hids2.2.1.symm
  have hstate : (foldRecords t now A l₁).state = (foldRecords t now A l₂).state :=
    hids1.2.2.trans hids2.2.2.symm
  have hev : (foldRecords t now A l₁).events_played =
      (foldRecords t now A l₂).events_played := by
    rw [foldRecords_events_played, foldRecords_events_played, hp.length_eq]
  have hsets : (foldRecords t now A l₁).sets_played =
      (foldRecords t now A l₂).sets_played := by
    rw [foldRecords_sets_played, foldRecords_sets_played, hsum]
  have hwins : (foldRecords t now A l₁).wins = (foldRecords t now A l₂).wins := by
    rw [foldRecords_wins, foldRecords_wins, hsum]
  have hsv : (foldRecords t now A l₁).sets_vs_higher_seed =
      (foldRecords t now A l₂).sets_vs_higher_seed := by
    rw [foldRecords_sets_vs_higher_seed, foldRecords_sets_vs_higher_seed, hsum]
  have hwv : (foldRecords t now A l₁).wins_vs_higher_seed =
      (foldRecords t now A l₂).wins_vs_higher_seed := by
    rw [foldRecords_wins_vs_higher_seed, foldRecords_wins_vs_higher_seed, hsum]
  have hcs : (foldRecords t now A l₁).character_sets =
      (foldRecords t now A l₂).character_sets := by
    rw [foldRecords_character_sets, foldRecords_character_sets, hsum]
  have hcw : (foldRecords t now A l₁).character_wins =
      (foldRecords t now A l₂).character_wins := by
    rw [foldRecords_character_wins, foldRecords_character_wins, hsum]
  have hws : (foldRecords t now A l₁).weight_sum =
      (foldRecords t now A l₂).weight_sum := by
    rw [foldRecords_weight_sum, foldRecords_weight_sum, hsumR]
  have hww : (foldRecords t now A l₁).weighted_wins =
      (foldRecords t now A l₂).weighted_wins := by
    rw [foldRecords_weighted_wins, foldRecords_weighted_wins, hsumR]
  have hcww : (foldRecords t now A l₁).character_weighted_wins =
      (foldRecords t now A l₂).character_weighted_wins := by
    rw [foldRecords_character_weighted_wins, foldRecords_character_weighted_wins, hsumR]
  have hcws : (foldRecords t now A l₁).character_weight_sum =
      (foldRecords t now A l₂).character_weight_sum := by
    rw [foldRecords_character_weight_sum, foldRecords_character_weight_sum, hsumR]
  have hsd : (foldRecords t now A l₁).seed_deltas.Perm
      (foldRecords t now A l₂).seed_deltas := by
    rw [foldRecords_seed_deltas, foldRecords_seed_deltas]
    exact (hp.filterMap deltaOpt).append_left A.seed_deltas
  have hos : (foldRecords t now A l₁).opponent_strength_values.Perm
      (foldRecords t now A l₂).opponent_strength_values := by
    rw [foldRecords_opponent_strength_values, foldRecords_opponent_strength_values]
    exact (hp.flatMap_right strengthsOf).append_left A.opponent_strength_values
  have hes : (foldRecords t now A l₁).event_sizes.Perm
      (foldRecords t now A l₂).event_sizes := by
    rw [foldRecords_event_sizes, foldRecords_event_sizes]
    exact (hp.filterMap sizeOpt).append_left A.event_sizes
  have htourn : (foldRecords t now A l₁).tournaments =
      (foldRecords t now A l₂).tournaments := by
    rw [foldRecords_tournaments, foldRecords_tournaments,
      perm_toFinset (hp.filterMap tnameOpt)]
  have hlat : (foldRecords t now A l₁).latest_event_start =
      (foldRecords t now A l₂).latest_event_start := by
    rw [foldRecords_latest_event_start, foldRecords_latest_event_start,
      foldl_max_perm (hp.filterMap startOpt)]
  have hcnt : ∀ k, tallyCount (foldRecords t now A l₁).event_state_counts k =
      tallyCount (foldRecords t now A l₂).event_state_counts k := by
    intro k
    rw [foldRecords_tallyCount, foldRecords_tallyCount,
      (hp.filterMap stateKeyOpt).count_eq]
  have htotal : ((foldRecords t now A l₁).event_state_counts.map Prod.snd).sum =
      ((foldRecords t now A l₂).event_state_counts.map Prod.snd).sum := by
    rw [foldRecords_tally_sum, foldRecords_tally_sum,
      (hp.filterMap stateKeyOpt).length_eq]
  have hnd1 := foldRecords_tally_nodup t now l₁ A hA
  have hnd2 := foldRecords_tally_nodup t now l₂ A hA
  have hip : inferredPairOf (foldRecords t now A l₁).event_state_counts =
      inferredPairOf (foldRecords t now A l₂).event_state_counts :=
    inferredPairOf_congr _ _ hnd1 hnd2 hcnt htotal
  refine ⟨hsets, ?_⟩
  have hsdsum : (foldRecords t now A l₁).seed_deltas.sum =
      (foldRecords t now A l₂).seed_deltas.sum := hsd.sum_eq
  have hsdlen : (foldRecords t now A l₁).seed_deltas.length =
      (foldRecords t now A l₂).seed_deltas.length := hsd.length_eq
  have hsdnil : (foldRecords t now A l₁).seed_deltas = [] ↔
      (foldRecords t now A l₂).seed_deltas = [] := by
    rw [← List.length_eq_zero, ← List.length_eq_zero, hsdlen]
  have hossum : (foldRecords t now A l₁).opponent_strength_values.sum =
      (foldRecords t now A l₂).opponent_strength_values.sum := hos.sum_eq
  have hoslen : (foldRecords t now A l₁).opponent_strength_values.length =
      (foldRecords t now A l₂).opponent_strength_values.length := hos.length_eq
  have hosnil : (foldRecords t now A l₁).opponent_strength_values = [] ↔
      (foldRecords t now A l₂).opponent_strength_values = [] := by
    rw [← List.length_eq_zero, ← List.length_eq_zero, hoslen]
  have hessum : ((foldRecords t now A l₁).event_sizes.map (fun n : Nat => (n : ℝ))).sum =
      ((foldRecords t now A l₂).event_sizes.map (fun n : Nat => (n : ℝ))).sum :=
    (List.Perm.map (fun n : Nat => (n : ℝ)) hes).sum_eq
  have heslen : (foldRecords t now A l₁).event_sizes.length =
      (foldRecords t now A l₂).event_sizes.length := hes.length_eq
  have hesnil : (foldRecords t now A l₁).event_sizes = [] ↔
      (foldRecords t now A l₂).event_sizes = [] := by
    rw [← List.length_eq_zero, ← List.length_eq_zero, heslen]
  have hesmax : natListMax (foldRecords t now A l₁).event_sizes =
      natListMax (foldRecords t now A l₂).event_sizes := by
    rw [natListMax, natListMax, foldl_max_perm hes]
  ext
  · rw [finalizeRow_player_id, finalizeRow_player_id, hpid]
  · rw [finalizeRow_gamer_tag, finalizeRow_gamer_tag, htag]
  · rw [finalizeRow_state, finalizeRow_state, hstate]
  · rw [finalizeRow_events_played, finalizeRow_events_played, hev]
  · rw [finalizeRow_sets_played, finalizeRow_sets_played, hsets]
  · rw [finalizeRow_win_rate, finalizeRow_win_rate, hwins, hsets]
  · rw [finalizeRow_weighted_win_rate, finalizeRow_weighted_win_rate, hww, hws]
  · rw [finalizeRow_avg_seed_delta, finalizeRow_avg_seed_delta]
    by_cases hnil : (foldRecords t now A l₁).seed_deltas = []
    · rw [if_neg (by simp [hnil]), if_neg (by simp [hsdnil.mp hnil])]
    · rw [if_pos hnil, if_pos (fun hc => hnil (hsdnil.mpr hc))]
      rw [rmean, rmean, hsdsum, hsdlen]
  · rw [finalizeRow_opponent_strength, finalizeRow_opponent_strength]
    by_cases hnil : (foldRecords t now A l₁).opponent_strength_values = []
    · rw [if_neg (by simp [hnil]), if_neg (by simp [hosnil.mp hnil])]
    · rw [if_pos hnil, if_pos (fun hc => hnil (hosnil.mpr hc))]
      rw [rmean, rmean, hossum, hoslen]
  · rw [finalizeRow_character_sets, finalizeRow_character_sets, hcs, hsets]
  · rw [finalizeRow_character_win_rate, finalizeRow_character_win_rate,
      hcs, hsets, hwins, hcw]
  · rw [finalizeRow_character_weighted_win_rate, finalizeRow_character_weighted_win_rate,
      hcs, hsets, hww, hws, hcww, hcws]
  · rw [finalizeRow_character_usage_rate, finalizeRow_character_usage_rate,
      hcs, hsets]
  · rw [finalizeRow_upset_rate, finalizeRow_upset_rate, hwv, hsv]
  · rw [finalizeRow_activity_score, finalizeRow_activity_score, hev, hsets]
  · rw [finalizeRow_tournaments_played, finalizeRow_tournaments_played, htourn]
  · rw [finalizeRow_latest_event_start, finalizeRow_latest_event_start, hlat]
  · rw [finalizeRow_avg_event_entrants, finalizeRow_avg_event_entrants]
    by_cases hnil : (foldRecords t now A l₁).event_sizes = []
    · rw [if_neg (by simp [hnil]), if_neg (by simp [hesnil.mp hnil])]
    · rw [if_pos hnil, if_pos (fun hc => hnil (hesnil.mpr hc))]
      rw [rmean, rmean, hessum]
      rw [List.length_map, List.length_map, heslen]
  · rw [finalizeRow_max_event_entrants, finalizeRow_max_event_entrants]
    by_cases hnil : (foldRecords t now A l₁).event_sizes = []
    · rw [if_neg (by simp [hnil]), if_neg (by simp [hesnil.mp hnil])]
    · rw [if_pos hnil, if_pos (fun hc => hnil (hesnil.mpr hc)), hesmax]
  · rw [finalizeRow_events_with_known_state, finalizeRow_events_with_known_state,
      htotal]
  · rw [finalizeRow_inferred_state, finalizeRow_inferred_state, hip]
  · rw [finalizeRow_inferred_state_confidence, finalizeRow_inferred_state_confidence,
      hip]
  · rw [finalizeRow_home_state, finalizeRow_home_state, hstate, hip]
  · rw [finalizeRow_home_state_inferred, finalizeRow_home_state_inferred, hstate, hip]
  · rw [finalizeRow_home_state_confidence, finalizeRow_home_state_confidence,
      hstate, hip]

/-! ## Per-player decomposition of the aggregate table -/

theorem contPlayer_some (t : String) (now : Int) :
    ∀ (l : List PlayerEventResult) (a : PlayerAggregate),
    contPlayer t now (some a) l = some (foldRecords t now a l)
  | [], a => rfl
  | r :: rest, a => contPlayer_some t now rest (stepRecord t now a r)

theorem findAgg_applyFold (t : String) (now : Int) :
    ∀ (l : List PlayerEventResult) (aggs : List (Nat × PlayerAggregate)) (pid : Nat),
    findAgg (l.foldl (applyRecord t now) aggs) pid =
      contPlayer t now (findAgg aggs pid) (l.filter (fun r => r.player_id == pid))
  | [], aggs, pid => rfl
  | r :: rest, aggs, pid => by
    rw [List.foldl_cons, findAgg_applyFold t now rest, List.filter_cons]
    have hstep : findAgg (applyRecord t now aggs r) pid =
        if r.player_id == pid then
          some (stepRecord t now ((findAgg aggs pid).getD (initAgg r)) r)
        else findAgg aggs pid := by
      rw [applyRecord]
      cases hf : findAgg aggs r.player_id with
      | some a0 =>
        rw [findAgg_updateAgg]
        by_cases hpe : r.player_id = pid
        · rw [if_pos hpe, if_pos (by simp [hpe])]
          rw [← hpe, hf]
          rfl
        · rw [if_neg hpe, if_neg (by simp [hpe])]
      | none =>
        rw [findAgg_append]
        by_cases hpe : r.player_id = pid
        · rw [← hpe, hf]
          rw [if_pos (by simp)]
          show findAgg [(r.player_id, stepRecord t now (initAgg r) r)] r.player_id = _
          rw [findAgg, if_pos rfl]
          rfl
        · rw [if_neg (by simp [hpe])]
          cases hfp : findAgg aggs pid with
          | some a1 => rfl
          | none =>
            show findAgg [(r.player_id, stepRecord t now (initAgg r) r)] pid = none
            rw [findAgg, if_neg hpe]
            rfl
    rw [hstep]
    by_cases hpe : (r.player_id == pid) = true
    · rw [if_pos hpe, if_pos hpe]
      rfl
    · rw [if_neg hpe, if_neg hpe]

theorem findAgg_foldAggregates (l : List PlayerEventResult) (t : String) (now : Int)
    (pid : Nat) :
    findAgg (foldAggregates l t now) pid =
      contPlayer t now none (l.filter (fun r => r.player_id == pid)) := by
  rw [foldAggregates, findAgg_applyFold]
  rfl

theorem rowFor_cons_pos (row : Row) (rows : List Row) (pid : Nat)
    (h : (row.player_id == pid) = true) : rowFor (row :: rows) pid = some row := by
  simp [rowFor, List.find?_cons, h]

theorem rowFor_cons_neg (row : Row) (rows : List Row) (pid : Nat)
    (h : (row.player_id == pid) = false) :
    rowFor (row :: rows) pid = rowFor rows pid := by
  simp [rowFor, List.find?_cons, h]

theorem rowFor_none_of_missing (b : Bool) :
    ∀ (aggs : List (Nat × PlayerAggregate)),
    (∀ pa ∈ aggs, pa.2.player_id = pa.1) → ∀ pid : Nat, pid ∉ aggs.map Prod.fst →
    rowFor (aggs.filterMap (fun pa =>
      if pa.2.sets_played = 0 then none else some (finalizeRow pa.2 b))) pid = none
  | [], _, pid, _ => rfl
  | (k, a) :: rest, h, pid, hnm => by
    have hrest : ∀ pa ∈ rest, pa.2.player_id = pa.1 :=
      fun pa hpa => h pa (List.mem_cons_of_mem _ hpa)
    have hk : pid ≠ k := by
      intro hc
      exact hnm (by rw [hc, List.map_cons]; exact List.mem_cons_self _ _)
    have hnm' : pid ∉ rest.map Prod.fst := by
      intro hc
      exact hnm (by rw [List.map_cons]; exact List.mem_cons_of_mem _ hc)
    rw [List.filterMap_cons]
    by_cases h0 : a.sets_played = 0
    · rw [if_pos h0]
      exact rowFor_none_of_missing b rest hrest pid hnm'
    · rw [if_neg h0]
      rw [rowFor, List.find?_cons]
      have hpi : (finalizeRow a b).player_id = k := by
        rw [finalizeRow_player_id]
        exact h (k, a) (List.mem_cons_self _ _)
      have : ((finalizeRow a b).player_id == pid) = false := by
        rw [hpi]
        exact beq_false_of_ne (fun hc => hk hc.symm)
      rw [this]
      exact rowFor_none_of_missing b rest hrest pid hnm'

theorem rowFor_filterMap (b : Bool) :
    ∀ (aggs : List (Nat × PlayerAggregate)), KeysOk aggs → ∀ pid : Nat,
    rowFor (aggs.filterMap (fun pa =>
      if pa.2.sets_played = 0 then none else some (finalizeRow pa.2 b))) pid =
      (findAgg aggs pid).bind (fun a =>
        if a.sets_played = 0 then none else some (finalizeRow a b))
  | [], _, pid => rfl
  | (k, a) :: rest, h, pid => by
    have hrest : KeysOk rest := by
      refine ⟨fun pa hpa => h.1 pa (List.mem_cons_of_mem _ hpa), ?_⟩
      have hnd := h.2
      rw [List.map_cons, List.nodup_cons] at hnd
      exact hnd.2
    have hknotin : k ∉ rest.map Prod.fst := by
      have hnd := h.2
      rw [List.map_cons, List.nodup_cons] at hnd
      exact hnd.1
    have hpia : (finalizeRow a b).player_id = k := by
      rw [finalizeRow_player_id]
      exact h.1 (k, a) (List.mem_cons_self _ _)
    by_cases h0 : a.sets_played = 0
    · have hfm : List.filterMap (fun pa =>
          if pa.2.sets_played = 0 then none else some (finalizeRow pa.2 b))
          ((k, a) :: rest) = List.filterMap (fun pa =>
          if pa.2.sets_played = 0 then none else some (finalizeRow pa.2 b)) rest :=
        List.filterMap_cons_none (by rw [if_pos h0])
      rw [hfm]
      by_cases hkp : k = pid
      · subst hkp
        rw [rowFor_none_of_missing b rest hrest.1 k hknotin, findAgg, if_pos rfl]
        show none = if a.sets_played = 0 then none else some (finalizeRow a b)
        rw [if_pos h0]
      · rw [findAgg, if_neg hkp]
        exact rowFor_filterMap b rest hrest pid
    · have hfm : List.filterMap (fun pa =>
          if pa.2.sets_played = 0 then none else some (finalizeRow pa.2 b))
          ((k, a) :: rest) = finalizeRow a b :: List.filterMap (fun pa =>
          if pa.2.sets_played = 0 then none else some (finalizeRow pa.2 b)) rest :=
        List.filterMap_cons_some (by rw [if_neg h0])
      rw [hfm]
      by_cases hkp : k = pid
      · subst hkp
        rw [rowFor_cons_pos _ _ _ (by rw [hpia]; exact beq_self_eq_true k),
          findAgg, if_pos rfl]
        show some (finalizeRow a b) =
          if a.sets_played = 0 then none else some (finalizeRow a b)
        rw [if_neg h0]
      · rw [rowFor_cons_neg _ _ _ (by rw [hpia]; exact beq_false_of_ne hkp),
          findAgg, if_neg hkp]
        exact rowFor_filterMap b rest hrest pid

theorem rowFor_compute (l : List PlayerEventResult) (target : String) (b : Bool)
    (now : Int) (pid : Nat) :
    rowFor (compute_player_metrics l target b now) pid =
      (findAgg (foldAggregates l target now) pid).bind (fun a =>
        if a.sets_played = 0 then none else some (finalizeRow a b)) := by
  rw [compute_player_metrics]
  exact rowFor_filterMap b (foldAggregates l target now) (KeysOk_fold l target now) pid

/-! ## Order-independence of the per-player rows -/

/-- C4 (amended): folding any permutation of the records yields the same
output row for each player id, provided all records of a player agree on
the identity fields the fold reads from the first record seen (display tag
and profile location state); the counterexample shows the claim fails
without that proviso. -/
theorem claim_C4 (l₁ l₂ : List PlayerEventResult) (target : String) (b : Bool)
    (now : Int) (hperm : l₁.Perm l₂)
    (hcons : ∀ r ∈ l₁, ∀ r' ∈ l₁, r.player_id = r'.player_id →
      r.gamer_tag = r'.gamer_tag ∧ r.location_state = r'.location_state)
    (pid : Nat) :
    rowFor (compute_player_metrics l₁ target b now) pid =
      rowFor (compute_player_metrics l₂ target b now) pid := by
  rw [rowFor_compute, rowFor_compute, findAgg_foldAggregates, findAgg_foldAggregates]
  have hfp : (l₁.filter (fun r => r.player_id == pid)).Perm
      (l₂.filter (fun r => r.player_id == pid)) := hperm.filter _
  cases hf1 : l₁.filter (fun r => r.player_id == pid) with
  | nil =>
    have hf2 : l₂.filter (fun r => r.player_id == pid) = [] := by
      have hlen := hfp.length_eq
      rw [hf1] at hlen
      simp only [List.length_nil] at hlen
      exact List.length_eq_zero.mp hlen.symm
    rw [hf2]
  | cons r₀ rest₁ =>
    cases hf2 : l₂.filter (fun r => r.player_id == pid) with
    | nil =>
      have hlen := hfp.length_eq
      rw [hf1, hf2] at hlen
      simp at hlen
    | cons r₀' rest₂ =>
      have hr0 : r₀ ∈ l₁.filter (fun r => r.player_id == pid) := by
        rw [hf1]
        exact List.mem_cons_self _ _
      have hr0' : r₀' ∈ l₂.filter (fun r => r.player_id == pid) := by
        rw [hf2]
        exact List.mem_cons_self _ _
      have hm1 : r₀ ∈ l₁ := List.mem_of_mem_filter hr0
      have hp1 : r₀.player_id = pid := by
        have := List.of_mem_filter hr0
        simpa using this
      have hm2 : r₀' ∈ l₁ := (hperm.mem_iff).mpr (List.mem_of_mem_filter hr0')
      have hp2 : r₀'.player_id = pid := by
        have := List.of_mem_filter hr0'
        simpa using this
      have hcons' := hcons r₀ hm1 r₀' hm2 (by rw [hp1, hp2])
      have hinit : initAgg r₀ = initAgg r₀' := by
        rw [initAgg, initAgg, hcons'.1, hcons'.2, hp1, hp2]
      have hperm' : (r₀ :: rest₁).Perm (r₀' :: rest₂) := by
        rw [← hf1, ← hf2]
        exact hfp
      have hA : ((initAgg r₀).event_state_counts.map Prod.fst).Nodup := by
        simp [initAgg]
      have hmain := foldRecords_perm_finalize target now b (initAgg r₀) hA hperm'
      have hc1 : contPlayer target now none (r₀ :: rest₁) =
          some (foldRecords target now (initAgg r₀) (r₀ :: rest₁)) := by
        show contPlayer target now (some (stepRecord target now (initAgg r₀) r₀))
          rest₁ = _
        rw [contPlayer_some]
        rfl
      have hc2 : contPlayer target now none (r₀' :: rest₂) =
          some (foldRecords target now (initAgg r₀) (r₀' :: rest₂)) := by
        show contPlayer target now (some (stepRecord target now (initAgg r₀') r₀'))
          rest₂ = _
        rw [contPlayer_some, hinit]
        rfl
      rw [hc1, hc2]
      show (if (foldRecords target now (initAgg r₀) (r₀ :: rest₁)).sets_played = 0
          then none
          else some (finalizeRow (foldRecords target now (initAgg r₀) (r₀ :: rest₁)) b))
        = (if (foldRecords target now (initAgg r₀) (r₀' :: rest₂)).sets_played = 0
          then none
          else some (finalizeRow (foldRecords target now (initAgg r₀) (r₀' :: rest₂)) b))
      rw [hmain.1, hmain.2]

theorem claim_C4_witness :
    rowFor (compute_player_metrics [exRecWin, exRecNoResult] "Marth" false 0) 9 =
      rowFor (compute_player_metrics [exRecNoResult, exRecWin] "Marth" false 0) 9 :=
  claim_C4 [exRecWin, exRecNoResult] [exRecNoResult, exRecWin] "Marth" false 0
    (List.Perm.swap exRecNoResult exRecWin []) (by decide) 9

theorem claim_C4_counterexample :
    [exRecTagA, exRecTagB].Perm [exRecTagB, exRecTagA] ∧
    rowFor (compute_player_metrics [exRecTagA, exRecTagB] "Marth" false 0) 1 ≠
      rowFor (compute_player_metrics [exRecTagB, exRecTagA] "Marth" false 0) 1 := by
  constructor
  · exact List.Perm.swap exRecTagB exRecTagA []
  · have h1 : rowFor (compute_player_metrics [exRecTagA, exRecTagB] "Marth" false 0) 1 =
        some (finalizeRow (foldRecords "Marth" 0 (initAgg exRecTagA)
          [exRecTagA, exRecTagB]) false) := by
      rw [rowFor_compute, findAgg_foldAggregates]
      have hfil : [exRecTagA, exRecTagB].filter (fun r => r.player_id == 1) =
          [exRecTagA, exRecTagB] := rfl
      rw [hfil]
      have hcp : contPlayer "Marth" 0 none [exRecTagA, exRecTagB] =
          some (foldRecords "Marth" 0 (initAgg exRecTagA) [exRecTagA, exRecTagB]) := by
        show contPlayer "Marth" 0 (some (stepRecord "Marth" 0 (initAgg exRecTagA)
          exRecTagA)) [exRecTagB] = _
        rw [contPlayer_some]
        rfl
      rw [hcp]
      have hsp : (foldRecords "Marth" 0 (initAgg exRecTagA)
          [exRecTagA, exRecTagB]).sets_played = 2 := by
        rw [foldRecords_sets_played]
        rfl
      show (if (foldRecords "Marth" 0 (initAgg exRecTagA)
          [exRecTagA, exRecTagB]).sets_played = 0 then none
        else some (finalizeRow (foldRecords "Marth" 0 (initAgg exRecTagA)
          [exRecTagA, exRecTagB]) false)) = _
      rw [hsp]
      norm_num
    have h2 : rowFor (compute_player_metrics [exRecTagB, exRecTagA] "Marth" false 0) 1 =
        some (finalizeRow (foldRecords "Marth" 0 (initAgg exRecTagB)
          [exRecTagB, exRecTagA]) false) := by
      rw [rowFor_compute, findAgg_foldAggregates]
      have hfil : [exRecTagB, exRecTagA].filter (fun r => r.player_id == 1) =
          [exRecTagB, exRecTagA] := rfl
      rw [hfil]
      have hcp : contPlayer "Marth" 0 none [exRecTagB, exRecTagA] =
          some (foldRecords "Marth" 0 (initAgg exRecTagB) [exRecTagB, exRecTagA]) := by
        show contPlayer "Marth" 0 (some (stepRecord "Marth" 0 (initAgg exRecTagB)
          exRecTagB)) [exRecTagA] = _
        rw [contPlayer_some]
        rfl
      rw [hcp]
      have hsp : (foldRecords "Marth" 0 (initAgg exRecTagB)
          [exRecTagB, exRecTagA]).sets_played = 2 := by
        rw [foldRecords_sets_played]
        rfl
      show (if (foldRecords "Marth" 0 (initAgg exRecTagB)
          [exRecTagB, exRecTagA]).sets_played = 0 then none
        else some (finalizeRow (foldRecords "Marth" 0 (initAgg exRecTagB)
          [exRecTagB, exRecTagA]) false)) = _
      rw [hsp]
      norm_num
    intro h
    rw [h1, h2] at h
    injection h with h
    have hgt := congrArg Row.gamer_tag h
    have ha := (foldRecords_ids "Marth" 0 [exRecTagA, exRecTagB] (initAgg exRecTagA)).2.1
    have hb := (foldRecords_ids "Marth" 0 [exRecTagB, exRecTagA] (initAgg exRecTagB)).2.1
    rw [finalizeRow_gamer_tag, finalizeRow_gamer_tag, ha, hb] at hgt
    exact absurd hgt (by decide)
